import Mathlib

/-!
# apko build pipeline: `pkg/build/image_builder.go` and `pkg/cli/build.go`

A shallow embedding of `Context.BuildImage`, `Context.InstallBusyboxSymlinks`
and `cli.BuildCmd`.

* Go `error` values are the type `GoError`; a possibly-nil `error` is
  `Option GoError`.
* The workspace (and whatever else the collaborators touch) is an abstract
  type `W`; every collaborator whose body lives outside these two files is a
  field of `Env`.
* The closures handed to `errgroup.Group.Go` run as threads of a small-step
  machine.  The scheduler is an explicit list of thread indices; each access
  to the captured variable `err` is a step of its own.
-/

namespace Apko

/-! ## Go errors -/

/-- Go error values, as far as the two files can tell them apart:
`errNotExist` is the sentinel `os.ErrNotExist`; `errno` is a `syscall.Errno`
with its number and its message; `leaf` is any other error without a cause
(`errors.New`, or a `%w` verb whose operand was nil); `wrap` is an error with
an `Unwrap` method (`fmt.Errorf` with `%w` on a non-nil cause, or the
`*fs.PathError` of a failed system call). -/
inductive GoError where
  | errNotExist
  | errno (code : Nat) (msg : String)
  | leaf (msg : String)
  | wrap (msg : String) (cause : GoError)
  deriving DecidableEq, Repr

/-- The `Error()` method. -/
def GoError.Error : GoError → String
  | .errNotExist => "file does not exist"
  | .errno _ m => m
  | .leaf m => m
  | .wrap m _ => m

/-- The function `errors.Unwrap`. -/
def GoError.Unwrap : GoError → Option GoError
  | .wrap _ c => some c
  | _ => none

/-- The call `fmt.Errorf(pre + "%w", err)`; a nil operand is printed as
`%!w(<nil>)` and leaves the result without a cause. -/
def Errorf (pre : String) (err : Option GoError) : GoError :=
  match err with
  | some e => .wrap (pre ++ e.Error) e
  | none => .leaf (pre ++ "%!w(<nil>)")

/-- The number of `syscall.ENOENT`. -/
def ENOENT : Nat := 2

/-- The number of `syscall.EACCES`. -/
def EACCES : Nat := 13

/-- The call `errors.Is(err, os.ErrNotExist)` on a non-nil error: true when
the error is the sentinel itself, or when its `Is` method accepts the sentinel
(that of `syscall.Errno` does so for `ENOENT` only), or when this holds of the
error it unwraps to. -/
def errorsIsNotExist : GoError → Bool
  | .errNotExist => true
  | .errno code _ => code == ENOENT
  | .leaf _ => false
  | .wrap _ c => errorsIsNotExist c

/-- The error of a failed system call `op` on `path`: a `*fs.PathError`
around the errno, with the message "op path: cause". -/
def pathError (op path : String) (code : Nat) (msg : String) : GoError :=
  .wrap (op ++ " " ++ path ++ ": " ++ msg) (.errno code msg)

/-! ## Stages, events, contexts -/

/-- The stages `BuildImage` sequences. -/
inductive Stage where
  | Validate
  | InitApkDB
  | InitApkKeyring
  | InitApkRepositories
  | InitApkWorld
  | FixateApkWorld
  | normalizeApkScriptsTar
  | MutateAccounts
  | InstallBusyboxSymlinks
  | WriteSupervisionTree
  | GenerateSBOM
  deriving DecidableEq, Repr

/-- What an observer of a `BuildImage` run sees, in order. -/
inductive Event where
  | call (s : Stage)
  | ret (s : Stage) (r : Option GoError)
  | stat (path : String)
  | chroot (path : String) (args : List String)
  deriving DecidableEq, Repr

/-- The fields of `build.Context` the two files read.  `SourceDateEpoch` is a
`time.Time`, kept as its Unix seconds. -/
structure Context (Cfg : Type) where
  WorkDir : String
  UseProot : Bool
  SBOMPath : String
  ImageConfiguration : Cfg
  SourceDateEpoch : Int

/-- The collaborators of `BuildImage` and `InstallBusyboxSymlinks` whose
bodies are outside the two files: each takes the context and the workspace
and returns its error and the workspace it leaves. -/
structure Env (W Cfg : Type) where
  Validate : Cfg → Option GoError
  InitApkDB : Context Cfg → W → Option GoError × W
  InitApkKeyring : Context Cfg → W → Option GoError × W
  InitApkRepositories : Context Cfg → W → Option GoError × W
  InitApkWorld : Context Cfg → W → Option GoError × W
  FixateApkWorld : Context Cfg → W → Option GoError × W
  normalizeApkScriptsTar : Context Cfg → W → Option GoError × W
  MutateAccounts : Context Cfg → W → Option GoError × W
  WriteSupervisionTree : Context Cfg → W → Option GoError × W
  GenerateSBOM : Context Cfg → W → Option GoError × W
  filepathJoin : List String → String
  Stat : String → W → Option GoError
  ExecuteChroot : Context Cfg → String → List String → W → Option GoError × W

/-- The outcome of a run: the returned error, the workspace, the events. -/
structure Run (W : Type) where
  result : Option GoError
  world : W
  trace : List Event

/-! ## `InstallBusyboxSymlinks` -/

/-- Embedding of `Context.InstallBusyboxSymlinks`: returns the error, the
workspace and the events of the call. -/
def InstallBusyboxSymlinks {W Cfg : Type} (env : Env W Cfg) (bc : Context Cfg) (w : W) :
    Option GoError × W × List Event :=
  let path := env.filepathJoin [bc.WorkDir, "bin", "busybox"]
  match env.Stat path w with
  | some err =>
    if errorsIsNotExist err then (none, w, [Event.stat path])
    else (some err, w, [Event.stat path])
  | none =>
    match env.ExecuteChroot bc "/bin/busybox" ["--install", "-s"] w with
    | (some err, w1) =>
      (some (Errorf "failed to install busybox symlinks: " (some err)), w1,
        [Event.stat path, Event.chroot "/bin/busybox" ["--install", "-s"]])
    | (none, w1) =>
      (none, w1, [Event.stat path, Event.chroot "/bin/busybox" ["--install", "-s"]])

/-! ## The errgroup machine -/

/-- A closure passed to `eg.Go`: the stage it calls, the format prefix of its
`fmt.Errorf`, and whether it assigns the captured `err` of `BuildImage`
(`err = ...`) or a variable of its own (`err := ...`). -/
structure GoFunc (W : Type) where
  stage : Stage
  body : W → Option GoError × W
  pre : String
  shared : Bool

/-- Program points of a closure running in its goroutine.  The payload of
`assigned` and `failing` is the closure's own `err` (unused when the closure
assigns the captured one). -/
inductive TState where
  | start
  | called
  | returned (r : Option GoError)
  | assigned (loc : Option GoError)
  | failing (loc : Option GoError)
  | exited (res : Option GoError)
  | done
  deriving DecidableEq, Repr

/-- State of a concurrent phase: workspace, events, the captured variable
`err`, the error slot of the `errgroup.Group`, and the goroutines. -/
structure GState (W : Type) where
  world : W
  trace : List Event
  err : Option GoError
  gerr : Option GoError
  ts : List TState

/-- What `errgroup.Group` does when a closure has returned `res`: the slot
keeps the error it has, an empty slot takes `res`. -/
def errOnce (gerr res : Option GoError) : Option GoError :=
  match gerr with
  | some e => some e
  | none => res

/-- One step of goroutine `i`.
`start`: the stage is entered. `called`: the stage returns. `returned`: the
result is assigned to `err`. `assigned`: `err != nil` is tested. `failing`:
`err` is read as the operand of `fmt.Errorf` and the closure returns.
`exited`: the errgroup keeps the first non-nil error (`errOnce`). -/
def stepThread {W : Type} (fs : List (GoFunc W)) (i : Nat) (g : GState W) : GState W :=
  match fs[i]?, g.ts[i]? with
  | some f, some t =>
    match t with
    | .start =>
      { g with trace := g.trace ++ [Event.call f.stage], ts := g.ts.set i .called }
    | .called =>
      { g with world := (f.body g.world).2,
               trace := g.trace ++ [Event.ret f.stage (f.body g.world).1],
               ts := g.ts.set i (.returned (f.body g.world).1) }
    | .returned r =>
      if f.shared then { g with err := r, ts := g.ts.set i (.assigned none) }
      else { g with ts := g.ts.set i (.assigned r) }
    | .assigned loc =>
      if (if f.shared then g.err else loc).isSome then { g with ts := g.ts.set i (.failing loc) }
      else { g with ts := g.ts.set i (.exited none) }
    | .failing loc =>
      let e := Errorf f.pre (if f.shared then g.err else loc)
      { g with ts := g.ts.set i (.exited (some e)) }
    | .exited res =>
      { g with gerr := errOnce g.gerr res, ts := g.ts.set i .done }
    | .done => g
  | _, _ => g

/-- The schedule that lets every goroutine, one after the other, run to its
end: six steps take a goroutine from `start` to `done`. -/
def drain (n : Nat) : List Nat :=
  (List.range n).flatMap (fun i => List.replicate 6 i)

/-- The goroutines of `fs` are launched and `eg.Wait()` is called: the
scheduler follows `sched`, then whatever is still running runs to its end. -/
def runGroup {W : Type} (fs : List (GoFunc W)) (sched : List Nat) (g : GState W) : GState W :=
  (sched ++ drain fs.length).foldl (fun g i => stepThread fs i g) g

/-! ## `BuildImage` -/

/-- A collaborator seen as a stage body that logs no events of its own. -/
def ext {W : Type} (f : W → Option GoError × W) (w : W) : Option GoError × W × List Event :=
  ((f w).1, (f w).2, [])

/-- The sequential pattern `err = stage(); if err != nil { return
fmt.Errorf(pre + "%w", err) }` followed by the rest of the function. -/
def seqStage {W : Type} (pre : String) (s : Stage) (body : W → Option GoError × W × List Event)
    (k : W → List Event → Run W) (w : W) (tr : List Event) : Run W :=
  match body w with
  | (some err, w1, evs) =>
    ⟨some (Errorf pre (some err)), w1, tr ++ [Event.call s] ++ evs ++ [Event.ret s (some err)]⟩
  | (none, w1, evs) => k w1 (tr ++ [Event.call s] ++ evs ++ [Event.ret s none])

/-- The pattern `if err := eg.Wait(); err != nil { return err }` after the
closures `fs` were launched.  The captured variable `err` is nil when they
start (the check that precedes each of the two phases has passed) and so is
the error slot of the group. -/
def parPhase {W : Type} (fs : List (GoFunc W)) (sched : List Nat)
    (k : W → List Event → Run W) (w : W) (tr : List Event) : Run W :=
  let g := runGroup fs sched ⟨w, tr, none, none, fs.map (fun _ => TState.start)⟩
  match g.gerr with
  | some e => ⟨some e, g.world, g.trace⟩
  | none => k g.world g.trace

/-- The three closures of the first concurrent phase (lines 45-67): all three
assign the captured `err`. -/
def initClosures {W Cfg : Type} (env : Env W Cfg) (bc : Context Cfg) : List (GoFunc W) :=
  [ ⟨Stage.InitApkKeyring, env.InitApkKeyring bc, "failed to initialize apk keyring: ", true⟩,
    ⟨Stage.InitApkRepositories, env.InitApkRepositories bc,
      "failed to initialize apk repositories: ", true⟩,
    ⟨Stage.InitApkWorld, env.InitApkWorld bc, "failed to initialize apk world: ", true⟩ ]

/-- The two closures of the second concurrent phase (lines 79-91): the first
declares its own `err`, the second assigns the captured one. -/
def postClosures {W Cfg : Type} (env : Env W Cfg) (bc : Context Cfg) : List (GoFunc W) :=
  [ ⟨Stage.normalizeApkScriptsTar, env.normalizeApkScriptsTar bc,
      "failed to normalize scripts.tar: ", false⟩,
    ⟨Stage.MutateAccounts, env.MutateAccounts bc, "failed to mutate accounts: ", true⟩ ]

/-- Lines 111-120 of `BuildImage`: the SBOM stage, when a path is set, and the
final `return nil`. -/
def sbomTail {W Cfg : Type} (env : Env W Cfg) (bc : Context Cfg) (w : W) (tr : List Event) :
    Run W :=
  if bc.SBOMPath ≠ "" then
    seqStage "failed to generate SBOM: " Stage.GenerateSBOM (ext (env.GenerateSBOM bc))
      (fun w tr => ⟨none, w, tr⟩) w tr
  else ⟨none, w, tr⟩

/-- Lines 105-120 of `BuildImage`. -/
def supervisionTail {W Cfg : Type} (env : Env W Cfg) (bc : Context Cfg) (w : W)
    (tr : List Event) : Run W :=
  seqStage "failed to write supervision tree: " Stage.WriteSupervisionTree
    (ext (env.WriteSupervisionTree bc)) (sbomTail env bc) w tr

/-- Lines 97-120 of `BuildImage`. -/
def symlinkTail {W Cfg : Type} (env : Env W Cfg) (bc : Context Cfg) (w : W) (tr : List Event) :
    Run W :=
  if bc.UseProot then
    seqStage "failed to install busybox symlinks: " Stage.InstallBusyboxSymlinks
      (InstallBusyboxSymlinks env bc) (supervisionTail env bc) w tr
  else supervisionTail env bc w tr

/-- Embedding of `Context.BuildImage`.  `sched1` and `sched2` are the
schedules of the two concurrent phases, `w` the workspace at entry. -/
def BuildImage {W Cfg : Type} (env : Env W Cfg) (bc : Context Cfg) (sched1 sched2 : List Nat)
    (w : W) : Run W :=
  seqStage "failed to validate configuration: " Stage.Validate
    (fun w => (env.Validate bc.ImageConfiguration, w, []))
    (seqStage "failed to initialize apk database: " Stage.InitApkDB (ext (env.InitApkDB bc))
      (parPhase (initClosures env bc) sched1
        (seqStage "failed to fixate apk world: " Stage.FixateApkWorld
          (ext (env.FixateApkWorld bc))
          (parPhase (postClosures env bc) sched2 (symlinkTail env bc)))))
    w []

/-! ## `BuildCmd` -/

/-- What an observer of a `BuildCmd` run sees, in order. -/
inductive CmdEvent (Cfg : Type) where
  | mkdirTemp (r : Option GoError)
  | opt (i : Nat) (r : Option GoError)
  | buildLayer (layerTarGZ : String) (r : Option GoError)
  | assemble (imageRef layerTarGZ outputTarGZ : String) (cfg : Cfg) (epoch : Int)
  | remove (path : String)
  | removeAll (path : String)
  deriving DecidableEq

/-- A `build.Option`: a function on the context that may fail. -/
abbrev BuildOption (W Cfg : Type) := Context Cfg → W → Option GoError × Context Cfg × W

/-- The collaborators of `BuildCmd`. `zeroCfg` is the zero value of the
configuration type. -/
structure CmdEnv (W Cfg : Type) where
  MkdirTemp : String → String → W → (String × Option GoError) × W
  RemoveAll : String → W → W
  Remove : String → W → W
  BuildLayer : Context Cfg → W → (String × Option GoError) × Context Cfg × W
  BuildImageTarballFromLayer : String → String → String → Cfg → Int → W → Option GoError × W
  zeroCfg : Cfg

/-- The outcome of a `BuildCmd` run. -/
structure CmdRun (W Cfg : Type) where
  result : Option GoError
  world : W
  trace : List (CmdEvent Cfg)

/-- The loop `for _, opt := range opts` of `BuildCmd`; `i` is the index of the
first option of the list. Returns the error that ended the loop, if any. -/
def applyOpts {W Cfg : Type} : List (BuildOption W Cfg) → Nat → Context Cfg → W →
    Option GoError × Context Cfg × W × List (CmdEvent Cfg)
  | [], _, bc, w => (none, bc, w, [])
  | opt :: rest, i, bc, w =>
    match opt bc w with
    | (some err, bc1, w1) => (some err, bc1, w1, [CmdEvent.opt i (some err)])
    | (none, bc1, w1) =>
      match applyOpts rest (i + 1) bc1 w1 with
      | (r, bc2, w2, evs) => (r, bc2, w2, CmdEvent.opt i none :: evs)

/-- In the words of the claim, "applying every option in order" succeeded: the
options of the list, applied one after the other starting from the context
`bc` and the workspace `w`, all return nil and leave the context `bc1` and the
workspace `w1`.  Stated on the options themselves, not on `applyOpts`. -/
inductive OptsSucceed {W Cfg : Type} :
    List (BuildOption W Cfg) → Context Cfg → W → Context Cfg → W → Prop where
  | nil (bc : Context Cfg) (w : W) : OptsSucceed [] bc w bc w
  | cons (opt : BuildOption W Cfg) (rest : List (BuildOption W Cfg)) (bc bc1 bc2 : Context Cfg)
      (w w1 w2 : W) (h : opt bc w = (none, bc1, w1)) (hrest : OptsSucceed rest bc1 w1 bc2 w2) :
      OptsSucceed (opt :: rest) bc w bc2 w2

/-- Calls of `oci.BuildImageTarballFromLayer` among the events. -/
def CmdEvent.isAssemble {Cfg : Type} : CmdEvent Cfg → Bool
  | .assemble _ _ _ _ _ => true
  | _ => false

/-- The zero `time.Time` (January 1, year 1, 00:00 UTC) in Unix seconds. -/
def zeroTime : Int := -62135596800

/-- Embedding of `cli.BuildCmd`.  The two deferred removals run, last
registered first, on every return that follows their `defer`. -/
def BuildCmd {W Cfg : Type} (env : CmdEnv W Cfg) (imageRef outputTarGZ : String)
    (opts : List (BuildOption W Cfg)) (w : W) : CmdRun W Cfg :=
  match env.MkdirTemp "" "apko-*" w with
  | ((_, some err), w1) =>
    ⟨some (Errorf "failed to create working directory: " (some err)), w1,
      [CmdEvent.mkdirTemp (some err)]⟩
  | ((wd, none), w1) =>
    match applyOpts opts 0 ⟨wd, false, "", env.zeroCfg, zeroTime⟩ w1 with
    | (some err, _, w2, evs) =>
      ⟨some err, env.RemoveAll wd w2,
        CmdEvent.mkdirTemp none :: (evs ++ [CmdEvent.removeAll wd])⟩
    | (none, bc, w2, evs) =>
      match env.BuildLayer bc w2 with
      | ((layerTarGZ, some err), _, w3) =>
        ⟨some (Errorf "failed to build layer image: " (some err)), env.RemoveAll wd w3,
          CmdEvent.mkdirTemp none ::
            (evs ++ [CmdEvent.buildLayer layerTarGZ (some err), CmdEvent.removeAll wd])⟩
      | ((layerTarGZ, none), bc1, w3) =>
        match env.BuildImageTarballFromLayer imageRef layerTarGZ outputTarGZ
            bc1.ImageConfiguration bc1.SourceDateEpoch w3 with
        | (some err, w4) =>
          ⟨some (Errorf "failed to build OCI image: " (some err)),
            env.RemoveAll wd (env.Remove layerTarGZ w4),
            CmdEvent.mkdirTemp none ::
              (evs ++ [CmdEvent.buildLayer layerTarGZ none,
                CmdEvent.assemble imageRef layerTarGZ outputTarGZ bc1.ImageConfiguration
                  bc1.SourceDateEpoch,
                CmdEvent.remove layerTarGZ, CmdEvent.removeAll wd])⟩
        | (none, w4) =>
          ⟨none, env.RemoveAll wd (env.Remove layerTarGZ w4),
            CmdEvent.mkdirTemp none ::
              (evs ++ [CmdEvent.buildLayer layerTarGZ none,
                CmdEvent.assemble imageRef layerTarGZ outputTarGZ bc1.ImageConfiguration
                  bc1.SourceDateEpoch,
                CmdEvent.remove layerTarGZ, CmdEvent.removeAll wd])⟩

/-! ## Concrete collaborators, used to run the definitions

The workspace is the list of the paths that exist in it. -/

/-- A collaborator that succeeds and creates the file `p`. -/
def touch {Cfg : Type} (p : String) (_ : Context Cfg) (w : List String) :
    Option GoError × List String :=
  (none, w ++ [p])

/-- A collaborator that fails with `e` and leaves the workspace as it is. -/
def failWith {Cfg : Type} (e : GoError) (_ : Context Cfg) (w : List String) :
    Option GoError × List String :=
  (some e, w)

/-- Collaborators that all succeed; `Stat` reports a missing path with a
`PathError` around `ENOENT`; `Validate` rejects the configuration `false`. -/
def okEnv : Env (List String) Bool where
  Validate := fun cfg => if cfg then none else some (GoError.leaf "no packages")
  InitApkDB := touch "lib/apk/db/installed"
  InitApkKeyring := touch "etc/apk/keys"
  InitApkRepositories := touch "etc/apk/repositories"
  InitApkWorld := touch "etc/apk/world"
  FixateApkWorld := touch "bin/busybox"
  normalizeApkScriptsTar := touch "lib/apk/db/scripts.tar"
  MutateAccounts := touch "etc/passwd"
  WriteSupervisionTree := touch "sv"
  GenerateSBOM := touch "sbom.json"
  filepathJoin := fun l => "/".intercalate (l.filter (fun x => x ≠ ""))
  Stat := fun p w =>
    if p ∈ w then none else some (pathError "stat" p ENOENT "no such file or directory")
  ExecuteChroot := fun _ _ _ w => (none, w ++ ["bin/sh"])

/-- A context with an empty work directory name, proot on, no SBOM. -/
def okCtx : Context Bool := ⟨"", true, "", true, 0⟩

/-- The error `os.Stat` gives for a path it may not read: a `PathError`
around `EACCES`. -/
def deniedErr : GoError := pathError "stat" "bin/busybox" EACCES "permission denied"

/-- The collaborators of `okEnv`, but `os.Stat` is refused. -/
def deniedEnv : Env (List String) Bool :=
  { okEnv with Stat := fun _ _ => some deniedErr }

/-- The collaborators of `okEnv`, but the chroot execution fails. -/
def chrootFailEnv : Env (List String) Bool :=
  { okEnv with ExecuteChroot := fun _ _ _ w => (some (GoError.leaf "exit status 1"), w) }

/-- A collaborator on a workspace that is the sum of the marks of the stages
that ran: it succeeds and adds its mark `n`. -/
def mark {Cfg : Type} (n : Nat) (_ : Context Cfg) (w : Nat) : Option GoError × Nat :=
  (none, w + n)

/-- Collaborators that all succeed and commute: each adds its own power of
two to the workspace. -/
def markEnv : Env Nat Bool where
  Validate := fun _ => none
  InitApkDB := mark 1
  InitApkKeyring := mark 2
  InitApkRepositories := mark 4
  InitApkWorld := mark 8
  FixateApkWorld := mark 16
  normalizeApkScriptsTar := mark 32
  MutateAccounts := mark 64
  WriteSupervisionTree := mark 128
  GenerateSBOM := mark 256
  filepathJoin := fun l => "/".intercalate (l.filter (fun x => x ≠ ""))
  Stat := fun p w =>
    if 16 ≤ w then none else some (pathError "stat" p ENOENT "no such file or directory")
  ExecuteChroot := fun _ _ _ w => (none, w + 512)

/-- The collaborators of `markEnv`, but `MutateAccounts` fails. -/
def markFailEnv : Env Nat Bool :=
  { markEnv with MutateAccounts := fun _ w => (some (GoError.leaf "passwd locked"), w + 64) }

/-- The collaborators of `markEnv`, but `InitApkKeyring` looks whether
`InitApkRepositories` has run (mark 4) and leaves another mark if so. -/
def peekEnv : Env Nat Bool :=
  { markEnv with
    InitApkKeyring := fun _ w => (none, if (w / 4) % 2 = 1 then w + 1024 else w + 2) }

/-- Collaborators of `BuildCmd` that all succeed. -/
def okCmdEnv : CmdEnv (List String) Bool where
  MkdirTemp := fun _ _ w => (("/tmp/apko-1", none), w ++ ["/tmp/apko-1"])
  RemoveAll := fun p w => w.filter (fun x => x ≠ p)
  Remove := fun p w => w.filter (fun x => x ≠ p)
  BuildLayer := fun bc w => (("/tmp/layer.tar.gz", none), bc, w ++ ["/tmp/layer.tar.gz"])
  BuildImageTarballFromLayer := fun _ _ o _ _ w => (none, w ++ [o])
  zeroCfg := false

/-- The collaborators of `okCmdEnv`, but `BuildLayer` fails. -/
def layerFailCmdEnv : CmdEnv (List String) Bool :=
  { okCmdEnv with BuildLayer := fun bc w => (("", some (GoError.leaf "no space left")), bc, w) }

/-- An option that sets the configuration, like `build.WithConfig`. -/
def withConfig : BuildOption (List String) Bool :=
  fun bc w => (none, { bc with ImageConfiguration := true }, w)

/-- An option that sets the proot flag, like `build.WithProot`. -/
def withProot (b : Bool) : BuildOption (List String) Bool :=
  fun bc w => (none, { bc with UseProot := b }, w)

/-- An option that sets the epoch, like `build.WithBuildDate`. -/
def withEpoch (t : Int) : BuildOption (List String) Bool :=
  fun bc w => (none, { bc with SourceDateEpoch := t }, w)

/-- An option that fails, like `build.WithBuildDate` on a malformed date. -/
def badOpt : BuildOption (List String) Bool :=
  fun bc w => (some (GoError.leaf "bad date"), bc, w)

/-- The context `okCtx` with an SBOM path. -/
def sbomCtx : Context Bool := { okCtx with SBOMPath := "sbom.json" }

/-- The collaborators of `okEnv`, but `InitApkKeyring` fails. -/
def keyringFailEnv : Env (List String) Bool :=
  { okEnv with InitApkKeyring := failWith (GoError.leaf "no keys") }

/-- The collaborators of `okEnv`, but `InitApkRepositories` fails. -/
def reposFailEnv : Env (List String) Bool :=
  { okEnv with InitApkRepositories := failWith (GoError.leaf "repo unreachable") }

/-- The collaborators of `okEnv`, but `InitApkWorld` fails. -/
def worldFailEnv : Env (List String) Bool :=
  { okEnv with InitApkWorld := failWith (GoError.leaf "bad world") }

/-- The collaborators of `okEnv`, but both `InitApkKeyring` and
`InitApkRepositories` fail. -/
def twoFailEnv : Env (List String) Bool :=
  { okEnv with InitApkKeyring := failWith (GoError.leaf "no keys"),
               InitApkRepositories := failWith (GoError.leaf "repo unreachable") }

/-- A schedule of the first concurrent phase: goroutine 0 calls its stage and
assigns `err`, then goroutine 1 does the same, and only then goroutine 0
tests `err`. -/
def overwriteSched : List Nat := [0, 0, 0, 1, 1, 1]

/-- A schedule of the first concurrent phase: goroutine 1 calls its stage and
assigns `err`, then goroutine 0 does the same, and only then goroutine 1
tests `err`. -/
def overwriteSched1 : List Nat := [1, 1, 1, 0, 0, 0]

/-- A schedule of the first concurrent phase: goroutine 0 assigns `err`, then
goroutine 1 assigns `err`, and only then goroutine 0 tests `err` and reads it
for `fmt.Errorf`. -/
def readSiblingSched : List Nat := [0, 0, 0, 1, 1, 1, 0, 0, 0]

/-- A schedule of the first concurrent phase: goroutine 2 calls its stage and
assigns `err`, then goroutine 0 does the same, and only then goroutine 2
tests `err`. -/
def overwriteSched2 : List Nat := [2, 2, 2, 0, 0, 0]

/-- A schedule of the first concurrent phase: goroutine 0 assigns `err` and
tests it, goroutine 1 assigns `err`, and only then goroutine 0 reads `err`
for `fmt.Errorf`. -/
def lateReadSched : List Nat := [0, 0, 0, 0, 1, 1, 1]

/-- A schedule of the first concurrent phase in which goroutine 1 runs to its
end before goroutine 0 starts. -/
def reposFirstSched : List Nat := [1, 1, 1, 1, 1, 1]

/-! ## Predicates on the states of a concurrent phase -/

/-- The goroutine holds no error: no non-nil result, no non-nil local `err`,
and the `err != nil` test has not succeeded. -/
def TState.clean : TState → Prop
  | .returned r => r = none
  | .assigned loc => loc = none
  | .failing _ => False
  | .exited res => res = none
  | _ => True

/-- No error anywhere in the phase: the captured `err`, the slot of the
group and every goroutine. -/
def GState.noErr {W : Type} (g : GState W) : Prop :=
  g.err = none ∧ g.gerr = none ∧ ∀ t ∈ g.ts, t.clean

/-- The event is the call or the return of a stage of one of the closures. -/
def stageEvent {W : Type} (fs : List (GoFunc W)) (ev : Event) : Prop :=
  ∃ f ∈ fs, ev = Event.call f.stage ∨ ∃ r, ev = Event.ret f.stage r

/-- The stage of the goroutine has returned. -/
def TState.ran : TState → Bool
  | .start => false
  | .called => false
  | _ => true

/-- The number of steps the goroutine can still take, at most. -/
def TState.rank : TState → Nat
  | .start => 6
  | .called => 5
  | .returned _ => 4
  | .assigned _ => 3
  | .failing _ => 2
  | .exited _ => 1
  | .done => 0

/-- The steps goroutine `i` of the phase can still take, at most. -/
def GState.rk {W : Type} (g : GState W) (i : Nat) : Nat :=
  match g.ts[i]? with
  | some t => t.rank
  | none => 0

/-- What the stage of closure `i` does to the workspace. -/
def effect {W : Type} (fs : List (GoFunc W)) (i : Nat) (w : W) : W :=
  match fs[i]? with
  | some f => (f.body w).2
  | none => w

/-- The stages of the closures commute on the workspace: the workspace they
leave does not depend on the order in which two of them ran. -/
def commuting {W : Type} (fs : List (GoFunc W)) : Prop :=
  ∀ f ∈ fs, ∀ g ∈ fs, ∀ w, (f.body (g.body w).2).2 = (g.body (f.body w).2).2

/-- The workspace after the stages of all closures ran, the last closure
first. -/
def groupWorld {W : Type} (fs : List (GoFunc W)) (w : W) : W :=
  (List.range fs.length).foldr (effect fs) w

/-- The invariant of the workspace in a concurrent phase started on `w0`: the
workspace is `w0` after the stages that have returned, in the order `order`
(latest first) in which they returned. -/
def WInv {W : Type} (fs : List (GoFunc W)) (w0 : W) (g : GState W) : Prop :=
  ∃ order : List Nat, order.Nodup ∧
    (∀ i, i ∈ order ↔ ∃ t, g.ts[i]? = some t ∧ t.ran = true) ∧
    g.world = order.foldr (effect fs) w0

/-- The collaborator `f` succeeds on every workspace of the set `inv` and
leaves a workspace of the set. -/
def succeedsOn {W : Type} (inv : W → Prop) (f : W → Option GoError × W) : Prop :=
  ∀ w, inv w → (f w).1 = none ∧ inv (f w).2

/-- The invariant of a concurrent phase whose stages succeed on the set
`inv`, started with the events `tr0`: the workspace is in the set, no error
is held anywhere, and the events added since are events of the stages of the
phase. -/
def SInv {W : Type} (fs : List (GoFunc W)) (inv : W → Prop) (tr0 : List Event)
    (g : GState W) : Prop :=
  inv g.world ∧ g.noErr ∧ ∃ evs, g.trace = tr0 ++ evs ∧ ∀ ev ∈ evs, stageEvent fs ev

/-- The closures are independent on the workspace: for two different
closures, the workspace their stages leave does not depend on the order in
which the two ran, and the result of one does not depend on whether the other
has run. -/
def independent {W : Type} (fs : List (GoFunc W)) : Prop :=
  ∀ (i j : Nat) (f g : GoFunc W), i ≠ j → fs[i]? = some f → fs[j]? = some g → ∀ w,
    (f.body (g.body w).2).2 = (g.body (f.body w).2).2 ∧
      (f.body (g.body w).2).1 = (f.body w).1

/-- The closures that assign the captured `err` have stages with one and the
same result on the workspace `w0`. -/
def sharedAgree {W : Type} (fs : List (GoFunc W)) (w0 : W) : Prop :=
  ∀ (i j : Nat) (f g : GoFunc W), fs[i]? = some f → fs[j]? = some g →
    f.shared = true → g.shared = true →
    (f.body w0).1 = (g.body w0).1

/-- At most one of the closures has a stage that fails on the workspace
`w0`. -/
def atMostOneFails {W : Type} (fs : List (GoFunc W)) (w0 : W) : Prop :=
  ∀ (i j : Nat) (f g : GoFunc W) (e1 e2 : GoError), fs[i]? = some f → fs[j]? = some g →
    (f.body w0).1 = some e1 → (g.body w0).1 = some e2 → i = j

/-- What the goroutine of closure `f` holds, in a phase started on `w0` in
which `err` is the captured variable: the result of its stage on `w0`. -/
def tOK {W : Type} (w0 : W) (f : GoFunc W) (err : Option GoError) : TState → Prop
  | .returned r => r = (f.body w0).1
  | .assigned loc => (if f.shared then err else loc) = (f.body w0).1
  | .failing loc =>
    (if f.shared then err else loc) = (f.body w0).1 ∧ (f.body w0).1.isSome = true
  | .exited res => res = (f.body w0).1.map (fun e => Errorf f.pre (some e))
  | _ => True

/-- The invariant of the errors in a concurrent phase started on `w0`: every
goroutine holds the result of its own stage; the slot of the group, when set,
holds the wrapped error of a stage that failed; and it is set once a
goroutine whose stage failed is done. -/
def TInv {W : Type} (fs : List (GoFunc W)) (w0 : W) (g : GState W) : Prop :=
  (∀ (i : Nat) (f : GoFunc W) (t : TState), fs[i]? = some f → g.ts[i]? = some t →
    tOK w0 f g.err t) ∧
  (∀ E, g.gerr = some E →
    ∃ (i : Nat) (f : GoFunc W) (e : GoError),
      fs[i]? = some f ∧ (f.body w0).1 = some e ∧ E = Errorf f.pre (some e)) ∧
  (∀ (i : Nat) (f : GoFunc W) (e : GoError), fs[i]? = some f →
    g.ts[i]? = some TState.done → (f.body w0).1 = some e →
    g.gerr = some (Errorf f.pre (some e)))

/-- Two runs return the same result and leave the same workspace. -/
def sameOutcome {W : Type} (r1 r2 : Run W) : Prop :=
  r1.result = r2.result ∧ r1.world = r2.world

/-- The workspace on which the first concurrent phase starts. -/
def initEntry {W Cfg : Type} (env : Env W Cfg) (bc : Context Cfg) (w : W) : W :=
  (env.InitApkDB bc w).2

/-- The workspace on which `FixateApkWorld` runs when the three stages of the
first concurrent phase ran one after the other. -/
def fixateEntry {W Cfg : Type} (env : Env W Cfg) (bc : Context Cfg) (w : W) : W :=
  (env.InitApkKeyring bc (env.InitApkRepositories bc
    (env.InitApkWorld bc (initEntry env bc w)).2).2).2

/-- The workspace on which the second concurrent phase starts. -/
def postEntry {W Cfg : Type} (env : Env W Cfg) (bc : Context Cfg) (w : W) : W :=
  (env.FixateApkWorld bc (fixateEntry env bc w)).2

/-! # Theorems -/

set_option maxRecDepth 100000

/-! ## Sequential facts -/

theorem seqStage_err {W : Type} (pre : String) (s : Stage)
    (body : W → Option GoError × W × List Event) (k : W → List Event → Run W) (w : W)
    (tr : List Event) (e : GoError) (h : (body w).1 = some e) :
    seqStage pre s body k w tr =
      ⟨some (Errorf pre (some e)), (body w).2.1,
        tr ++ [Event.call s] ++ (body w).2.2 ++ [Event.ret s (some e)]⟩ := by
  unfold seqStage
  rcases hb : body w with ⟨r, w1, evs⟩
  rw [hb] at h
  simp only at h
  subst h
  rfl

theorem seqStage_ok {W : Type} (pre : String) (s : Stage)
    (body : W → Option GoError × W × List Event) (k : W → List Event → Run W) (w : W)
    (tr : List Event) (h : (body w).1 = none) :
    seqStage pre s body k w tr =
      k (body w).2.1 (tr ++ [Event.call s] ++ (body w).2.2 ++ [Event.ret s none]) := by
  unfold seqStage
  rcases hb : body w with ⟨r, w1, evs⟩
  rw [hb] at h
  simp only at h
  subst h
  rfl

/-- C1. If `Validate` returns an error `e`, `BuildImage` returns the error
"failed to validate configuration: " followed by the message of `e`, with
cause `e`; the run consists of the call of `Validate` alone, so none of the
ten later stages is entered and the workspace is untouched. -/
theorem BuildImage_validation_gate {W Cfg : Type} (env : Env W Cfg) (bc : Context Cfg)
    (sched1 sched2 : List Nat) (w : W) (e : GoError)
    (h : env.Validate bc.ImageConfiguration = some e) :
    (BuildImage env bc sched1 sched2 w).result =
        some (Errorf "failed to validate configuration: " (some e)) ∧
      (Errorf "failed to validate configuration: " (some e)).Error =
        "failed to validate configuration: " ++ e.Error ∧
      (Errorf "failed to validate configuration: " (some e)).Unwrap = some e ∧
      (BuildImage env bc sched1 sched2 w).trace =
        [Event.call Stage.Validate, Event.ret Stage.Validate (some e)] ∧
      (∀ s, s ≠ Stage.Validate →
        (BuildImage env bc sched1 sched2 w).trace.count (Event.call s) = 0) ∧
      (BuildImage env bc sched1 sched2 w).world = w := by
  have hrun : BuildImage env bc sched1 sched2 w =
      ⟨some (Errorf "failed to validate configuration: " (some e)), w,
        [Event.call Stage.Validate, Event.ret Stage.Validate (some e)]⟩ := by
    unfold BuildImage
    rw [seqStage_err _ _ _ _ _ _ e h]
    rfl
  rw [hrun]
  refine ⟨rfl, rfl, rfl, rfl, ?_, rfl⟩
  intro s hs
  simp [List.count_cons, hs.symm]

theorem BuildImage_validation_gate_witness :
    okEnv.Validate (Context.ImageConfiguration ⟨"", true, "", false, 0⟩) =
        some (GoError.leaf "no packages") ∧
      (BuildImage okEnv ⟨"", true, "", false, 0⟩ [] [] []).result =
        some (GoError.wrap "failed to validate configuration: no packages"
          (GoError.leaf "no packages")) :=
  ⟨by decide, by
    have h := (BuildImage_validation_gate okEnv ⟨"", true, "", false, 0⟩ [] [] []
      (GoError.leaf "no packages") (by decide)).1
    rw [h]; decide⟩

/-- C7. When `os.Stat` of the joined path fails with a not-exist error (an
error for which `errors.Is(err, os.ErrNotExist)` holds, such as the
`PathError` around `ENOENT` of a missing file), `InstallBusyboxSymlinks`
returns nil, does not call `ExecuteChroot` and leaves the workspace as it is,
whatever `UseProot` is. -/
theorem InstallBusyboxSymlinks_absent_noop {W Cfg : Type} (env : Env W Cfg) (bc : Context Cfg)
    (w : W) (e : GoError)
    (hstat : env.Stat (env.filepathJoin [bc.WorkDir, "bin", "busybox"]) w = some e)
    (hne : errorsIsNotExist e = true) :
    (InstallBusyboxSymlinks env bc w).1 = none ∧
      (∀ p a, (InstallBusyboxSymlinks env bc w).2.2.count (Event.chroot p a) = 0) ∧
      (InstallBusyboxSymlinks env bc w).2.1 = w := by
  unfold InstallBusyboxSymlinks
  simp [hstat, hne]

theorem InstallBusyboxSymlinks_absent_noop_witness :
    okEnv.Stat (okEnv.filepathJoin [okCtx.WorkDir, "bin", "busybox"]) [] =
        some (pathError "stat" "bin/busybox" ENOENT "no such file or directory") ∧
      errorsIsNotExist (pathError "stat" "bin/busybox" ENOENT "no such file or directory")
        = true ∧
      (InstallBusyboxSymlinks okEnv okCtx []).1 = none ∧
      (InstallBusyboxSymlinks okEnv { okCtx with UseProot := false } []).1 = none :=
  ⟨by decide, by decide,
    (InstallBusyboxSymlinks_absent_noop okEnv okCtx []
      (pathError "stat" "bin/busybox" ENOENT "no such file or directory")
      (by decide) (by decide)).1,
    (InstallBusyboxSymlinks_absent_noop okEnv { okCtx with UseProot := false } []
      (pathError "stat" "bin/busybox" ENOENT "no such file or directory")
      (by decide) (by decide)).1⟩

/-- C8, counterexample. `os.Stat` fails with the `PathError` around `EACCES`,
which is not a not-exist error: `InstallBusyboxSymlinks` returns that very
error, not an error that `fmt.Errorf` built around a cause with the message
of the stage. -/
theorem InstallBusyboxSymlinks_stat_error_bare :
    deniedEnv.Stat (deniedEnv.filepathJoin [okCtx.WorkDir, "bin", "busybox"]) [] =
        some deniedErr ∧
      errorsIsNotExist deniedErr = false ∧
      (InstallBusyboxSymlinks deniedEnv okCtx []).1 = some deniedErr ∧
      ¬ ∃ c, deniedErr = Errorf "failed to install busybox symlinks: " (some c) := by
  refine ⟨by decide, by decide, by decide, ?_⟩
  rintro ⟨c, hc⟩
  simp only [deniedErr, pathError, Errorf, GoError.wrap.injEq] at hc
  obtain ⟨h1, h2⟩ := hc
  subst h2
  revert h1
  decide

/-- C8, amended. When `os.Stat` succeeds, `InstallBusyboxSymlinks` calls
`ExecuteChroot` exactly once, with "/bin/busybox" and the arguments
"--install", "-s"; it returns nil when that call returns nil and otherwise
"failed to install busybox symlinks: " around the error of the call.  When
`os.Stat` fails with an error that is not a not-exist error (`errors.Is(err,
os.ErrNotExist)` is false), that error is returned as it is and
`ExecuteChroot` is not called. -/
theorem InstallBusyboxSymlinks_present {W Cfg : Type} (env : Env W Cfg) (bc : Context Cfg)
    (w : W) :
    (env.Stat (env.filepathJoin [bc.WorkDir, "bin", "busybox"]) w = none →
      (InstallBusyboxSymlinks env bc w).2.2 =
          [Event.stat (env.filepathJoin [bc.WorkDir, "bin", "busybox"]),
            Event.chroot "/bin/busybox" ["--install", "-s"]] ∧
        (InstallBusyboxSymlinks env bc w).2.2.count
          (Event.chroot "/bin/busybox" ["--install", "-s"]) = 1 ∧
        (∀ p a, Event.chroot p a ∈ (InstallBusyboxSymlinks env bc w).2.2 →
          p = "/bin/busybox" ∧ a = ["--install", "-s"]) ∧
        (InstallBusyboxSymlinks env bc w).2.1 =
          (env.ExecuteChroot bc "/bin/busybox" ["--install", "-s"] w).2 ∧
        ((env.ExecuteChroot bc "/bin/busybox" ["--install", "-s"] w).1 = none →
          (InstallBusyboxSymlinks env bc w).1 = none) ∧
        (∀ e, (env.ExecuteChroot bc "/bin/busybox" ["--install", "-s"] w).1 = some e →
          (InstallBusyboxSymlinks env bc w).1 =
              some (Errorf "failed to install busybox symlinks: " (some e)) ∧
            (Errorf "failed to install busybox symlinks: " (some e)).Unwrap = some e ∧
            (Errorf "failed to install busybox symlinks: " (some e)).Error =
              "failed to install busybox symlinks: " ++ e.Error)) ∧
    (∀ e, env.Stat (env.filepathJoin [bc.WorkDir, "bin", "busybox"]) w = some e →
      errorsIsNotExist e = false →
      (InstallBusyboxSymlinks env bc w).1 = some e ∧
        (∀ p a, (InstallBusyboxSymlinks env bc w).2.2.count (Event.chroot p a) = 0) ∧
        (InstallBusyboxSymlinks env bc w).2.1 = w) := by
  constructor
  · intro hstat
    unfold InstallBusyboxSymlinks
    simp only [hstat]
    rcases hx : env.ExecuteChroot bc "/bin/busybox" ["--install", "-s"] w with ⟨r, w1⟩
    cases r with
    | none => simp [Errorf, GoError.Unwrap, GoError.Error]
    | some e => simp [Errorf, GoError.Unwrap, GoError.Error]
  · intro e hstat hne
    unfold InstallBusyboxSymlinks
    simp [hstat, hne]

theorem InstallBusyboxSymlinks_present_witness :
    (InstallBusyboxSymlinks okEnv okCtx ["bin/busybox"]).2.2 =
        [Event.stat "bin/busybox", Event.chroot "/bin/busybox" ["--install", "-s"]] ∧
      (InstallBusyboxSymlinks chrootFailEnv okCtx ["bin/busybox"]).1 =
        some (GoError.wrap "failed to install busybox symlinks: exit status 1"
          (GoError.leaf "exit status 1")) ∧
      (InstallBusyboxSymlinks deniedEnv okCtx ["bin/busybox"]).1 = some deniedErr :=
  ⟨((InstallBusyboxSymlinks_present okEnv okCtx ["bin/busybox"]).1 (by decide)).1,
    by
      have h := (((InstallBusyboxSymlinks_present chrootFailEnv okCtx ["bin/busybox"]).1
        (by decide)).2.2.2.2.2 (GoError.leaf "exit status 1") (by decide)).1
      rw [h]; decide,
    ((InstallBusyboxSymlinks_present deniedEnv okCtx ["bin/busybox"]).2 deniedErr
      (by decide) (by decide)).1⟩

/-! ## `BuildCmd` -/

/-- The events of the options loop are option events only. -/
theorem applyOpts_events {W Cfg : Type} (opts : List (BuildOption W Cfg)) (i : Nat)
    (bc : Context Cfg) (w : W) (ev : CmdEvent Cfg) (h : ev ∈ (applyOpts opts i bc w).2.2.2) :
    ∃ j r, ev = CmdEvent.opt j r := by
  induction opts generalizing i bc w with
  | nil => simp [applyOpts] at h
  | cons opt rest ih =>
    unfold applyOpts at h
    rcases ho : opt bc w with ⟨r, bc1, w1⟩
    rw [ho] at h
    cases r with
    | some e =>
      simp only [List.mem_singleton] at h
      exact ⟨i, some e, h⟩
    | none =>
      simp only [List.mem_cons] at h
      rcases h with h | h
      · exact ⟨i, none, h⟩
      · exact ih (i + 1) bc1 w1 h

theorem applyOpts_no_assemble {W Cfg : Type} (opts : List (BuildOption W Cfg)) (i : Nat)
    (bc : Context Cfg) (w : W) :
    (applyOpts opts i bc w).2.2.2.countP CmdEvent.isAssemble = 0 := by
  rw [List.countP_eq_zero]
  intro ev hev
  obtain ⟨j, r, h⟩ := applyOpts_events opts i bc w ev hev
  subst h
  simp [CmdEvent.isAssemble]

/-- Options that succeed one after the other take the loop to its end. -/
theorem applyOpts_of_succeed {W Cfg : Type} {opts : List (BuildOption W Cfg)}
    {bc bc1 : Context Cfg} {w w1 : W} (h : OptsSucceed opts bc w bc1 w1) (i : Nat) :
    (applyOpts opts i bc w).1 = none ∧ (applyOpts opts i bc w).2.1 = bc1 ∧
      (applyOpts opts i bc w).2.2.1 = w1 := by
  induction h generalizing i with
  | nil bc w => exact ⟨rfl, rfl, rfl⟩
  | cons opt rest bc bc1 bc2 w w1 w2 h _ ih =>
    unfold applyOpts
    rw [h]
    exact ih (i + 1)

/-- A loop that ran to its end applied options that all succeeded. -/
theorem succeed_of_applyOpts {W Cfg : Type} (opts : List (BuildOption W Cfg)) (i : Nat)
    (bc : Context Cfg) (w : W) (h : (applyOpts opts i bc w).1 = none) :
    OptsSucceed opts bc w (applyOpts opts i bc w).2.1 (applyOpts opts i bc w).2.2.1 := by
  induction opts generalizing i bc w with
  | nil => exact OptsSucceed.nil bc w
  | cons opt rest ih =>
    unfold applyOpts at h ⊢
    rcases ho : opt bc w with ⟨r, bc1, w1⟩
    rw [ho] at h
    cases r with
    | some e => cases h
    | none => exact OptsSucceed.cons opt rest bc bc1 _ w w1 _ ho (ih (i + 1) bc1 w1 h)

/-- An option that fails after options that succeeded ends the loop with its
error. -/
theorem applyOpts_of_fail {W Cfg : Type} {done : List (BuildOption W Cfg)}
    {bc bc1 : Context Cfg} {w w1 : W} (h : OptsSucceed done bc w bc1 w1)
    (opt : BuildOption W Cfg) (rest : List (BuildOption W Cfg)) (e : GoError)
    (bc2 : Context Cfg) (w2 : W) (ho : opt bc1 w1 = (some e, bc2, w2)) (i : Nat) :
    (applyOpts (done ++ opt :: rest) i bc w).1 = some e ∧
      (applyOpts (done ++ opt :: rest) i bc w).2.2.1 = w2 := by
  induction h generalizing i with
  | nil bc w =>
    simp only [List.nil_append]
    unfold applyOpts
    rw [ho]
    exact ⟨rfl, rfl⟩
  | cons opt1 rest1 bc bc1 bc2 w w1 w2 h _ ih =>
    simp only [List.cons_append]
    unfold applyOpts
    rw [h]
    exact ih ho (i + 1)

theorem BuildCmd_mkdir_fail {W Cfg : Type} (env : CmdEnv W Cfg) (imageRef outputTarGZ : String)
    (opts : List (BuildOption W Cfg)) (w w1 : W) (wd : String) (e : GoError)
    (hm : env.MkdirTemp "" "apko-*" w = ((wd, some e), w1)) :
    BuildCmd env imageRef outputTarGZ opts w =
      ⟨some (Errorf "failed to create working directory: " (some e)), w1,
        [CmdEvent.mkdirTemp (some e)]⟩ := by
  unfold BuildCmd
  rw [hm]

theorem BuildCmd_opts_fail {W Cfg : Type} (env : CmdEnv W Cfg) (imageRef outputTarGZ : String)
    (opts : List (BuildOption W Cfg)) (w w1 : W) (wd : String) (e : GoError)
    (hm : env.MkdirTemp "" "apko-*" w = ((wd, none), w1))
    (ha : (applyOpts opts 0 ⟨wd, false, "", env.zeroCfg, zeroTime⟩ w1).1 = some e) :
    BuildCmd env imageRef outputTarGZ opts w =
      ⟨some e,
        env.RemoveAll wd (applyOpts opts 0 ⟨wd, false, "", env.zeroCfg, zeroTime⟩ w1).2.2.1,
        CmdEvent.mkdirTemp none ::
          ((applyOpts opts 0 ⟨wd, false, "", env.zeroCfg, zeroTime⟩ w1).2.2.2 ++
            [CmdEvent.removeAll wd])⟩ := by
  unfold BuildCmd
  rw [hm]
  simp only
  rcases hx : applyOpts opts 0 ⟨wd, false, "", env.zeroCfg, zeroTime⟩ w1 with ⟨r, bc, w2, evs⟩
  rw [hx] at ha
  simp only at ha
  subst ha
  rfl

theorem BuildCmd_layer_fail {W Cfg : Type} (env : CmdEnv W Cfg) (imageRef outputTarGZ : String)
    (opts : List (BuildOption W Cfg)) (w w1 w3 : W) (wd layer : String) (e : GoError)
    (bc3 : Context Cfg)
    (hm : env.MkdirTemp "" "apko-*" w = ((wd, none), w1))
    (ha : (applyOpts opts 0 ⟨wd, false, "", env.zeroCfg, zeroTime⟩ w1).1 = none)
    (hb : env.BuildLayer (applyOpts opts 0 ⟨wd, false, "", env.zeroCfg, zeroTime⟩ w1).2.1
      (applyOpts opts 0 ⟨wd, false, "", env.zeroCfg, zeroTime⟩ w1).2.2.1 =
        ((layer, some e), bc3, w3)) :
    BuildCmd env imageRef outputTarGZ opts w =
      ⟨some (Errorf "failed to build layer image: " (some e)), env.RemoveAll wd w3,
        CmdEvent.mkdirTemp none ::
          ((applyOpts opts 0 ⟨wd, false, "", env.zeroCfg, zeroTime⟩ w1).2.2.2 ++
            [CmdEvent.buildLayer layer (some e), CmdEvent.removeAll wd])⟩ := by
  unfold BuildCmd
  rw [hm]
  simp only
  rcases hx : applyOpts opts 0 ⟨wd, false, "", env.zeroCfg, zeroTime⟩ w1 with ⟨r, bc, w2, evs⟩
  rw [hx] at ha hb
  simp only at ha hb
  subst ha
  simp only
  rw [hb]

theorem BuildCmd_layer_ok {W Cfg : Type} (env : CmdEnv W Cfg) (imageRef outputTarGZ : String)
    (opts : List (BuildOption W Cfg)) (w w1 w3 : W) (wd layer : String) (bc3 : Context Cfg)
    (hm : env.MkdirTemp "" "apko-*" w = ((wd, none), w1))
    (ha : (applyOpts opts 0 ⟨wd, false, "", env.zeroCfg, zeroTime⟩ w1).1 = none)
    (hb : env.BuildLayer (applyOpts opts 0 ⟨wd, false, "", env.zeroCfg, zeroTime⟩ w1).2.1
      (applyOpts opts 0 ⟨wd, false, "", env.zeroCfg, zeroTime⟩ w1).2.2.1 =
        ((layer, none), bc3, w3)) :
    BuildCmd env imageRef outputTarGZ opts w =
      ⟨(env.BuildImageTarballFromLayer imageRef layer outputTarGZ bc3.ImageConfiguration
          bc3.SourceDateEpoch w3).1.map (fun e => Errorf "failed to build OCI image: " (some e)),
        env.RemoveAll wd (env.Remove layer
          (env.BuildImageTarballFromLayer imageRef layer outputTarGZ bc3.ImageConfiguration
            bc3.SourceDateEpoch w3).2),
        CmdEvent.mkdirTemp none ::
          ((applyOpts opts 0 ⟨wd, false, "", env.zeroCfg, zeroTime⟩ w1).2.2.2 ++
            [CmdEvent.buildLayer layer none,
              CmdEvent.assemble imageRef layer outputTarGZ bc3.ImageConfiguration
                bc3.SourceDateEpoch,
              CmdEvent.remove layer, CmdEvent.removeAll wd])⟩ := by
  unfold BuildCmd
  rw [hm]
  simp only
  rcases hx : applyOpts opts 0 ⟨wd, false, "", env.zeroCfg, zeroTime⟩ w1 with ⟨r, bc, w2, evs⟩
  rw [hx] at ha hb
  simp only at ha hb
  subst ha
  simp only
  rw [hb]
  simp only
  rcases hy : env.BuildImageTarballFromLayer imageRef layer outputTarGZ bc3.ImageConfiguration
    bc3.SourceDateEpoch w3 with ⟨ry, w4⟩
  cases ry <;> rfl

/-- C10. (1) When `MkdirTemp` fails, (2) when an option fails after the
options before it succeeded, and (3) when `BuildLayer` fails with `e` after
all options succeeded, `BuildCmd` returns a non-nil error (in case 3
"failed to build layer image: " around `e`) and the assembler is not called:
the workspace is the one the failing collaborator left, after the deferred
`RemoveAll`.  (4) When `MkdirTemp`, every option in order and `BuildLayer`
succeed, the assembler is called exactly once, on the workspace `BuildLayer`
left, with the image reference, the layer path `BuildLayer` returned, the
output path, and the configuration and epoch of the context.  (5) A call of
the assembler occurs in case 4 only. -/
theorem BuildCmd_no_partial_image {W Cfg : Type} (env : CmdEnv W Cfg)
    (imageRef outputTarGZ : String) (opts : List (BuildOption W Cfg)) (w : W) :
    (∀ wd e w1, env.MkdirTemp "" "apko-*" w = ((wd, some e), w1) →
      (BuildCmd env imageRef outputTarGZ opts w).result =
          some (Errorf "failed to create working directory: " (some e)) ∧
        (BuildCmd env imageRef outputTarGZ opts w).world = w1 ∧
        (BuildCmd env imageRef outputTarGZ opts w).trace.countP CmdEvent.isAssemble = 0) ∧
    (∀ wd w1 done opt rest bc w2 e bc3 w3,
      env.MkdirTemp "" "apko-*" w = ((wd, none), w1) →
      opts = done ++ opt :: rest →
      OptsSucceed done ⟨wd, false, "", env.zeroCfg, zeroTime⟩ w1 bc w2 →
      opt bc w2 = (some e, bc3, w3) →
      (BuildCmd env imageRef outputTarGZ opts w).result = some e ∧
        (BuildCmd env imageRef outputTarGZ opts w).world = env.RemoveAll wd w3 ∧
        (BuildCmd env imageRef outputTarGZ opts w).trace.countP CmdEvent.isAssemble = 0) ∧
    (∀ wd w1 bc w2 layer e bc3 w3,
      env.MkdirTemp "" "apko-*" w = ((wd, none), w1) →
      OptsSucceed opts ⟨wd, false, "", env.zeroCfg, zeroTime⟩ w1 bc w2 →
      env.BuildLayer bc w2 = ((layer, some e), bc3, w3) →
      (BuildCmd env imageRef outputTarGZ opts w).result =
          some (Errorf "failed to build layer image: " (some e)) ∧
        (BuildCmd env imageRef outputTarGZ opts w).world = env.RemoveAll wd w3 ∧
        (BuildCmd env imageRef outputTarGZ opts w).trace.countP CmdEvent.isAssemble = 0) ∧
    (∀ wd w1 bc w2 layer bc3 w3,
      env.MkdirTemp "" "apko-*" w = ((wd, none), w1) →
      OptsSucceed opts ⟨wd, false, "", env.zeroCfg, zeroTime⟩ w1 bc w2 →
      env.BuildLayer bc w2 = ((layer, none), bc3, w3) →
      (BuildCmd env imageRef outputTarGZ opts w).trace.countP CmdEvent.isAssemble = 1 ∧
        CmdEvent.assemble imageRef layer outputTarGZ bc3.ImageConfiguration
          bc3.SourceDateEpoch ∈ (BuildCmd env imageRef outputTarGZ opts w).trace ∧
        (BuildCmd env imageRef outputTarGZ opts w).result =
          (env.BuildImageTarballFromLayer imageRef layer outputTarGZ bc3.ImageConfiguration
            bc3.SourceDateEpoch w3).1.map
              (fun e => Errorf "failed to build OCI image: " (some e)) ∧
        (BuildCmd env imageRef outputTarGZ opts w).world =
          env.RemoveAll wd (env.Remove layer
            (env.BuildImageTarballFromLayer imageRef layer outputTarGZ bc3.ImageConfiguration
              bc3.SourceDateEpoch w3).2)) ∧
    (∀ a l o cfg t,
      CmdEvent.assemble a l o cfg t ∈ (BuildCmd env imageRef outputTarGZ opts w).trace →
      ∃ wd w1 bc w2 bc3 w3,
        env.MkdirTemp "" "apko-*" w = ((wd, none), w1) ∧
        OptsSucceed opts ⟨wd, false, "", env.zeroCfg, zeroTime⟩ w1 bc w2 ∧
        env.BuildLayer bc w2 = ((l, none), bc3, w3) ∧
        a = imageRef ∧ o = outputTarGZ ∧ cfg = bc3.ImageConfiguration ∧
        t = bc3.SourceDateEpoch) := by
  refine ⟨?_, ?_, ?_, ?_, ?_⟩
  · intro wd e w1 hm
    rw [BuildCmd_mkdir_fail env imageRef outputTarGZ opts w w1 wd e hm]
    exact ⟨rfl, rfl, by simp [CmdEvent.isAssemble]⟩
  · intro wd w1 done opt rest bc w2 e bc3 w3 hm ho hs hf
    subst ho
    obtain ⟨h1, h2⟩ := applyOpts_of_fail hs opt rest e bc3 w3 hf 0
    rw [BuildCmd_opts_fail env imageRef outputTarGZ _ w w1 wd e hm h1]
    refine ⟨rfl, by rw [h2], ?_⟩
    simp [List.countP_cons, List.countP_append, applyOpts_no_assemble, CmdEvent.isAssemble]
  · intro wd w1 bc w2 layer e bc3 w3 hm hs hb
    obtain ⟨h1, h2, h3⟩ := applyOpts_of_succeed hs 0
    rw [← h2, ← h3] at hb
    rw [BuildCmd_layer_fail env imageRef outputTarGZ opts w w1 w3 wd layer e bc3 hm h1 hb]
    refine ⟨rfl, rfl, ?_⟩
    simp [List.countP_cons, List.countP_append, applyOpts_no_assemble, CmdEvent.isAssemble]
  · intro wd w1 bc w2 layer bc3 w3 hm hs hb
    obtain ⟨h1, h2, h3⟩ := applyOpts_of_succeed hs 0
    rw [← h2, ← h3] at hb
    rw [BuildCmd_layer_ok env imageRef outputTarGZ opts w w1 w3 wd layer bc3 hm h1 hb]
    refine ⟨?_, by simp, rfl, rfl⟩
    simp [List.countP_cons, List.countP_append, applyOpts_no_assemble, CmdEvent.isAssemble]
  · intro a l o cfg t hmem
    rcases hm : env.MkdirTemp "" "apko-*" w with ⟨⟨wd, rm⟩, w1⟩
    have hopt : ∀ a l o cfg t, CmdEvent.assemble a l o cfg t ∉
        (applyOpts opts 0 ⟨wd, false, "", env.zeroCfg, zeroTime⟩ w1).2.2.2 := by
      intro a l o cfg t hx
      obtain ⟨j, r, h⟩ := applyOpts_events _ _ _ _ _ hx
      cases h
    cases rm with
    | some e =>
      rw [BuildCmd_mkdir_fail env imageRef outputTarGZ opts w w1 wd e hm] at hmem
      simp at hmem
    | none =>
      rcases ha : (applyOpts opts 0 ⟨wd, false, "", env.zeroCfg, zeroTime⟩ w1).1 with _ | e
      · have hs := succeed_of_applyOpts opts 0 ⟨wd, false, "", env.zeroCfg, zeroTime⟩ w1 ha
        rcases hb : env.BuildLayer
          (applyOpts opts 0 ⟨wd, false, "", env.zeroCfg, zeroTime⟩ w1).2.1
          (applyOpts opts 0 ⟨wd, false, "", env.zeroCfg, zeroTime⟩ w1).2.2.1 with
          ⟨⟨layer, rb⟩, bc3, w3⟩
        cases rb with
        | some e =>
          rw [BuildCmd_layer_fail env imageRef outputTarGZ opts w w1 w3 wd layer e bc3 hm ha hb]
            at hmem
          simp [hopt] at hmem
        | none =>
          rw [BuildCmd_layer_ok env imageRef outputTarGZ opts w w1 w3 wd layer bc3 hm ha hb]
            at hmem
          simp [hopt] at hmem
          obtain ⟨rfl, rfl, rfl, rfl, rfl⟩ := hmem
          exact ⟨wd, w1, _, _, bc3, w3, rfl, hs, hb, rfl, rfl, rfl, rfl⟩
      · rw [BuildCmd_opts_fail env imageRef outputTarGZ opts w w1 wd e hm ha] at hmem
        simp [hopt] at hmem

theorem BuildCmd_no_partial_image_witness :
    ((BuildCmd okCmdEnv "img:1" "out.tar" [withConfig, withProot true, withEpoch 0] []).result
        = none ∧
      CmdEvent.assemble "img:1" "/tmp/layer.tar.gz" "out.tar" true 0 ∈
        (BuildCmd okCmdEnv "img:1" "out.tar" [withConfig, withProot true, withEpoch 0] []).trace
      ∧
      (BuildCmd okCmdEnv "img:1" "out.tar" [withConfig, withProot true, withEpoch 0] []).world
        = ["out.tar"]) ∧
      (BuildCmd okCmdEnv "img:1" "out.tar" [withConfig, badOpt, withEpoch 0] []).result =
        some (GoError.leaf "bad date") ∧
      (BuildCmd layerFailCmdEnv "img:1" "out.tar" [withConfig] []).result =
        some (GoError.wrap "failed to build layer image: no space left"
          (GoError.leaf "no space left")) :=
  ⟨by
      have h := (BuildCmd_no_partial_image okCmdEnv "img:1" "out.tar"
        [withConfig, withProot true, withEpoch 0] []).2.2.2.1 "/tmp/apko-1" ["/tmp/apko-1"]
        ⟨"/tmp/apko-1", true, "", true, 0⟩ ["/tmp/apko-1"] "/tmp/layer.tar.gz"
        ⟨"/tmp/apko-1", true, "", true, 0⟩ ["/tmp/apko-1", "/tmp/layer.tar.gz"] rfl
        (OptsSucceed.cons _ _ _ _ _ _ _ _ rfl (OptsSucceed.cons _ _ _ _ _ _ _ _ rfl
          (OptsSucceed.cons _ _ _ _ _ _ _ _ rfl (OptsSucceed.nil _ _)))) rfl
      exact ⟨h.2.2.1, h.2.1, by rw [h.2.2.2]; decide⟩,
    ((BuildCmd_no_partial_image okCmdEnv "img:1" "out.tar"
        [withConfig, badOpt, withEpoch 0] []).2.1 "/tmp/apko-1" ["/tmp/apko-1"]
        [withConfig] badOpt [withEpoch 0] ⟨"/tmp/apko-1", false, "", true, zeroTime⟩
        ["/tmp/apko-1"] (GoError.leaf "bad date") ⟨"/tmp/apko-1", false, "", true, zeroTime⟩
        ["/tmp/apko-1"] rfl rfl
        (OptsSucceed.cons _ _ _ _ _ _ _ _ rfl (OptsSucceed.nil _ _)) rfl).1,
    ((BuildCmd_no_partial_image layerFailCmdEnv "img:1" "out.tar" [withConfig] []).2.2.1
        "/tmp/apko-1" ["/tmp/apko-1"] ⟨"/tmp/apko-1", false, "", true, zeroTime⟩
        ["/tmp/apko-1"] "" (GoError.leaf "no space left")
        ⟨"/tmp/apko-1", false, "", true, zeroTime⟩ ["/tmp/apko-1"] rfl
        (OptsSucceed.cons _ _ _ _ _ _ _ _ rfl (OptsSucceed.nil _ _)) rfl).1⟩

/-! ## The errgroup machine: the steps of a goroutine -/

theorem stepThread_spec {W : Type} (fs : List (GoFunc W)) (i : Nat) (g : GState W) :
    (stepThread fs i g = g ∧
        (fs[i]? = none ∨ g.ts[i]? = none ∨ g.ts[i]? = some TState.done)) ∨
      ∃ f t t1, fs[i]? = some f ∧ g.ts[i]? = some t ∧
        (stepThread fs i g).ts = g.ts.set i t1 ∧ t1.rank < t.rank ∧
        ((t = TState.called ∧ t1.ran = true ∧
            (stepThread fs i g).world = (f.body g.world).2) ∨
          (t1.ran = t.ran ∧ (stepThread fs i g).world = g.world)) := by
  unfold stepThread
  rcases hf : fs[i]? with _ | f
  · exact Or.inl ⟨rfl, Or.inl rfl⟩
  rcases ht : g.ts[i]? with _ | t
  · exact Or.inl ⟨rfl, Or.inr (Or.inl rfl)⟩
  cases t with
  | start => exact Or.inr ⟨f, _, TState.called, rfl, rfl, rfl, by simp [TState.rank], Or.inr ⟨rfl, rfl⟩⟩
  | called =>
    exact Or.inr ⟨f, _, TState.returned (f.body g.world).1, rfl, rfl, rfl, by simp [TState.rank],
      Or.inl ⟨rfl, rfl, rfl⟩⟩
  | returned r =>
    dsimp only
    split
    · exact Or.inr ⟨f, _, TState.assigned none, rfl, rfl, rfl, by simp [TState.rank], Or.inr ⟨rfl, rfl⟩⟩
    · exact Or.inr ⟨f, _, TState.assigned r, rfl, rfl, rfl, by simp [TState.rank], Or.inr ⟨rfl, rfl⟩⟩
  | assigned loc =>
    dsimp only
    split <;> split <;>
      first
      | exact Or.inr ⟨f, _, TState.failing loc, rfl, rfl, rfl, by simp [TState.rank],
          Or.inr ⟨rfl, rfl⟩⟩
      | exact Or.inr ⟨f, _, TState.exited none, rfl, rfl, rfl, by simp [TState.rank],
          Or.inr ⟨rfl, rfl⟩⟩
  | failing loc =>
    exact Or.inr ⟨f, _, TState.exited _, rfl, rfl, rfl, by simp [TState.rank], Or.inr ⟨rfl, rfl⟩⟩
  | exited res =>
    exact Or.inr ⟨f, _, TState.done, rfl, rfl, rfl, by simp [TState.rank], Or.inr ⟨rfl, rfl⟩⟩
  | done => exact Or.inl ⟨rfl, Or.inr (Or.inr rfl)⟩

theorem stepThread_length {W : Type} (fs : List (GoFunc W)) (i : Nat) (g : GState W) :
    (stepThread fs i g).ts.length = g.ts.length := by
  rcases stepThread_spec fs i g with ⟨h, _⟩ | ⟨f, t, t1, _, _, hts, _⟩
  · rw [h]
  · rw [hts, List.length_set]

theorem foldl_stepThread_length {W : Type} (fs : List (GoFunc W)) (sched : List Nat)
    (g : GState W) :
    (sched.foldl (fun g i => stepThread fs i g) g).ts.length = g.ts.length := by
  induction sched generalizing g with
  | nil => rfl
  | cons i rest ih => rw [List.foldl_cons, ih, stepThread_length]

theorem rank_le_six (t : TState) : t.rank ≤ 6 := by
  cases t <;> simp [TState.rank]

theorem rk_le_six {W : Type} (g : GState W) (i : Nat) : g.rk i ≤ 6 := by
  unfold GState.rk
  split
  · exact rank_le_six _
  · exact Nat.zero_le _

theorem stepThread_rk_le {W : Type} (fs : List (GoFunc W)) (j : Nat) (g : GState W) (i : Nat) :
    (stepThread fs j g).rk i ≤ g.rk i := by
  rcases stepThread_spec fs j g with ⟨h, _⟩ | ⟨f, t, t1, _, ht, hts, hrank, _⟩
  · rw [h]
  · unfold GState.rk
    rw [hts]
    by_cases hij : j = i
    · subst hij
      have hlt : j < g.ts.length := (List.getElem?_eq_some_iff.1 ht).1
      rw [List.getElem?_set_self hlt, ht]
      exact Nat.le_of_lt hrank
    · rw [List.getElem?_set_ne hij]

theorem stepThread_rk_lt {W : Type} (fs : List (GoFunc W)) (i : Nat) (g : GState W)
    (hi : i < fs.length) (hl : g.ts.length = fs.length) :
    (stepThread fs i g).rk i ≤ g.rk i - 1 := by
  rcases stepThread_spec fs i g with ⟨h, hc⟩ | ⟨f, t, t1, _, ht, hts, hrank, _⟩
  · rw [h]
    rcases hc with hc | hc | hc
    · rw [List.getElem?_eq_none_iff] at hc; omega
    · rw [List.getElem?_eq_none_iff] at hc; omega
    · simp [GState.rk, hc, TState.rank]
  · unfold GState.rk
    have hlt : i < g.ts.length := (List.getElem?_eq_some_iff.1 ht).1
    rw [hts, List.getElem?_set_self hlt, ht]
    simp only
    omega

theorem foldl_stepThread_rk_le {W : Type} (fs : List (GoFunc W)) (sched : List Nat)
    (g : GState W) (i : Nat) :
    (sched.foldl (fun g i => stepThread fs i g) g).rk i ≤ g.rk i := by
  induction sched generalizing g with
  | nil => exact Nat.le_refl _
  | cons j rest ih =>
    rw [List.foldl_cons]
    exact Nat.le_trans (ih _) (stepThread_rk_le fs j g i)

theorem replicate_stepThread_rk {W : Type} (fs : List (GoFunc W)) (i : Nat) (n : Nat)
    (g : GState W) (hi : i < fs.length) (hl : g.ts.length = fs.length) :
    ((List.replicate n i).foldl (fun g i => stepThread fs i g) g).rk i ≤ g.rk i - n := by
  induction n generalizing g with
  | zero => exact Nat.le_refl _
  | succ n ih =>
    rw [List.replicate_succ, List.foldl_cons]
    have h1 := ih (stepThread fs i g) (by rw [stepThread_length, hl])
    have h2 := stepThread_rk_lt fs i g hi hl
    omega

theorem drain_succ (m : Nat) : drain (m + 1) = drain m ++ List.replicate 6 m := by
  unfold drain
  rw [List.range_succ, List.flatMap_append]
  simp

theorem drain_rk {W : Type} (fs : List (GoFunc W)) (m : Nat) (g : GState W)
    (hm : m ≤ fs.length) (hl : g.ts.length = fs.length) (i : Nat) (hi : i < m) :
    ((drain m).foldl (fun g i => stepThread fs i g) g).rk i = 0 := by
  induction m with
  | zero => omega
  | succ m ih =>
    rw [drain_succ, List.foldl_append]
    by_cases him : i < m
    · have h1 := ih (by omega) him
      have h2 := foldl_stepThread_rk_le fs (List.replicate 6 m)
        ((drain m).foldl (fun g i => stepThread fs i g) g) i
      omega
    · have : i = m := by omega
      subst this
      have h2 := replicate_stepThread_rk fs i 6
        ((drain i).foldl (fun g i => stepThread fs i g) g) (by omega)
        (by rw [foldl_stepThread_length, hl])
      have h3 := rk_le_six ((drain i).foldl (fun g i => stepThread fs i g) g) i
      omega

theorem runGroup_done {W : Type} (fs : List (GoFunc W)) (sched : List Nat) (g : GState W)
    (hl : g.ts.length = fs.length) (i : Nat) (hi : i < fs.length) :
    (runGroup fs sched g).ts[i]? = some TState.done := by
  have h0 : (runGroup fs sched g).rk i = 0 := by
    unfold runGroup
    rw [List.foldl_append]
    exact drain_rk fs fs.length _ (Nat.le_refl _) (by rw [foldl_stepThread_length, hl]) i hi
  have hlen : (runGroup fs sched g).ts.length = fs.length := by
    unfold runGroup
    rw [foldl_stepThread_length, hl]
  have hlt : i < (runGroup fs sched g).ts.length := by omega
  unfold GState.rk at h0
  rw [List.getElem?_eq_getElem hlt] at h0 ⊢
  simp only at h0
  congr 1
  revert h0
  cases (runGroup fs sched g).ts[i] <;> simp [TState.rank]

/-! ## The errgroup machine: the workspace -/

theorem stepThread_WInv {W : Type} (fs : List (GoFunc W)) (w0 : W) (i : Nat) (g : GState W)
    (h : WInv fs w0 g) : WInv fs w0 (stepThread fs i g) := by
  obtain ⟨order, hnd, hmem, hw⟩ := h
  rcases stepThread_spec fs i g with ⟨h, _⟩ | ⟨f, t, t1, hf, ht, hts, _, hcase⟩
  · rw [h]; exact ⟨order, hnd, hmem, hw⟩
  · have hlt : i < g.ts.length := (List.getElem?_eq_some_iff.1 ht).1
    rcases hcase with ⟨htc, hran, hworld⟩ | ⟨hran, hworld⟩
    · subst htc
      have hni : i ∉ order := by
        intro hi
        obtain ⟨t, h1, h2⟩ := (hmem i).1 hi
        rw [ht] at h1
        cases h1
        simp [TState.ran] at h2
      refine ⟨i :: order, List.nodup_cons.2 ⟨hni, hnd⟩, ?_, ?_⟩
      · intro j
        rw [hts]
        by_cases hij : i = j
        · subst hij
          rw [List.getElem?_set_self hlt]
          simp [hran]
        · rw [List.getElem?_set_ne hij, List.mem_cons, ← hmem j]
          simp [Ne.symm hij]
      · rw [hworld, List.foldr_cons, ← hw]
        simp [effect, hf]
    · refine ⟨order, hnd, ?_, by rw [hworld, hw]⟩
      intro j
      rw [hts]
      by_cases hij : i = j
      · subst hij
        rw [List.getElem?_set_self hlt, hmem i, ht]
        simp [hran]
      · rw [List.getElem?_set_ne hij]
        exact hmem j

theorem foldl_stepThread_WInv {W : Type} (fs : List (GoFunc W)) (w0 : W) (sched : List Nat)
    (g : GState W) (h : WInv fs w0 g) :
    WInv fs w0 (sched.foldl (fun g i => stepThread fs i g) g) := by
  induction sched generalizing g with
  | nil => exact h
  | cons i rest ih => exact ih _ (stepThread_WInv fs w0 i g h)

theorem effect_comm {W : Type} (fs : List (GoFunc W)) (hc : commuting fs) (x y : Nat) (z : W) :
    effect fs y (effect fs x z) = effect fs x (effect fs y z) := by
  unfold effect
  rcases hx : fs[x]? with _ | f
  · rfl
  rcases hy : fs[y]? with _ | g
  · rfl
  exact hc g (List.getElem?_mem hy) f (List.getElem?_mem hx) z

/-- With commuting stages, the workspace a concurrent phase leaves is the
same for every schedule. -/
theorem runGroup_world {W : Type} (fs : List (GoFunc W)) (hc : commuting fs)
    (sched : List Nat) (w : W) (tr : List Event) :
    (runGroup fs sched ⟨w, tr, none, none, fs.map (fun _ => TState.start)⟩).world =
      groupWorld fs w := by
  have hinit : WInv fs w (⟨w, tr, none, none, fs.map (fun _ => TState.start)⟩ : GState W) := by
    refine ⟨[], List.nodup_nil, ?_, rfl⟩
    intro i
    simp only [List.not_mem_nil, false_iff, not_exists, not_and, List.getElem?_map]
    intro t ht
    rcases hfi : fs[i]? with _ | f
    · rw [hfi] at ht; cases ht
    · rw [hfi] at ht
      simp only [Option.map_some', Option.some.injEq] at ht
      subst ht
      simp [TState.ran]
  obtain ⟨order, hnd, hmem, hw⟩ := foldl_stepThread_WInv fs w (sched ++ drain fs.length) _ hinit
  have hlen : (runGroup fs sched ⟨w, tr, none, none, fs.map (fun _ => TState.start)⟩).ts.length
      = fs.length := by
    unfold runGroup
    rw [foldl_stepThread_length]
    simp
  have hperm : order.Perm (List.range fs.length) := by
    rw [List.perm_ext_iff_of_nodup hnd (List.nodup_range _)]
    intro i
    rw [List.mem_range, hmem i]
    constructor
    · rintro ⟨t, ht, _⟩
      have := (List.getElem?_eq_some_iff.1 ht).1
      unfold runGroup at hlen
      omega
    · intro hi
      refine ⟨TState.done, ?_, rfl⟩
      exact runGroup_done fs sched _ (by simp) i hi
  unfold groupWorld
  rw [← hperm.foldr_eq' (fun x _ y _ z => effect_comm fs hc x y z)]
  exact hw

/-! ## The SBOM stage -/

theorem clean_of_mem_set {ts : List TState} {i : Nat} {t u : TState}
    (hts : ∀ x ∈ ts, x.clean) (hu : u ∈ ts.set i t) (ht : t.clean) : u.clean := by
  rcases List.mem_or_eq_of_mem_set hu with h | h
  · exact hts u h
  · rw [h]; exact ht

theorem stepThread_SInv {W : Type} (fs : List (GoFunc W)) (inv : W → Prop)
    (hfs : ∀ f ∈ fs, succeedsOn inv f.body) (tr0 : List Event) (i : Nat)
    (g : GState W) (h : SInv fs inv tr0 g) : SInv fs inv tr0 (stepThread fs i g) := by
  obtain ⟨hw, hno, evs, htr, hev⟩ := h
  unfold stepThread
  rcases hf : fs[i]? with _ | f
  · exact ⟨hw, hno, evs, htr, hev⟩
  rcases ht : g.ts[i]? with _ | t
  · exact ⟨hw, hno, evs, htr, hev⟩
  have hfm : f ∈ fs := List.getElem?_mem hf
  have htm : t ∈ g.ts := List.getElem?_mem ht
  have hev1 : ∀ e1, stageEvent fs e1 → ∀ ev ∈ evs ++ [e1], stageEvent fs ev := by
    intro e1 h1 ev hmem
    rcases List.mem_append.1 hmem with hmem | hmem
    · exact hev ev hmem
    · rw [List.mem_singleton.1 hmem]; exact h1
  simp only
  cases t with
  | start =>
    exact ⟨hw, ⟨hno.1, hno.2.1, fun u hu => clean_of_mem_set hno.2.2 hu trivial⟩,
      evs ++ [Event.call f.stage], by simp [htr], hev1 _ ⟨f, hfm, Or.inl rfl⟩⟩
  | called =>
    obtain ⟨hr, hw1⟩ := hfs f hfm g.world hw
    exact ⟨hw1, ⟨hno.1, hno.2.1, fun u hu => clean_of_mem_set hno.2.2 hu hr⟩,
      evs ++ [Event.ret f.stage (f.body g.world).1], by simp [htr],
      hev1 _ ⟨f, hfm, Or.inr ⟨_, rfl⟩⟩⟩
  | returned r =>
    dsimp only
    have hr : r = none := hno.2.2 _ htm
    subst hr
    split
    · exact ⟨hw, ⟨rfl, hno.2.1, fun u hu => clean_of_mem_set hno.2.2 hu rfl⟩, evs, htr, hev⟩
    · exact ⟨hw, ⟨hno.1, hno.2.1, fun u hu => clean_of_mem_set hno.2.2 hu rfl⟩, evs, htr, hev⟩
  | assigned loc =>
    dsimp only
    have hr : loc = none := hno.2.2 _ htm
    subst hr
    have hv : (if f.shared = true then g.err else none).isSome = false := by
      rw [hno.1]; simp
    rw [hv]
    exact ⟨hw, ⟨hno.1, hno.2.1, fun u hu => clean_of_mem_set hno.2.2 hu rfl⟩, evs, htr, hev⟩
  | failing loc => exact absurd (hno.2.2 _ htm) (by simp [TState.clean])
  | exited res =>
    have hr : res = none := hno.2.2 _ htm
    subst hr
    refine ⟨hw, ⟨hno.1, ?_, fun u hu => clean_of_mem_set hno.2.2 hu trivial⟩, evs, htr, hev⟩
    simp [errOnce, hno.2.1]
  | done => exact ⟨hw, hno, evs, htr, hev⟩

theorem foldl_stepThread_SInv {W : Type} (fs : List (GoFunc W)) (inv : W → Prop)
    (hfs : ∀ f ∈ fs, succeedsOn inv f.body) (tr0 : List Event)
    (sched : List Nat) (g : GState W) (h : SInv fs inv tr0 g) :
    SInv fs inv tr0 (sched.foldl (fun g i => stepThread fs i g) g) := by
  induction sched generalizing g with
  | nil => exact h
  | cons i rest ih => exact ih _ (stepThread_SInv fs inv hfs tr0 i g h)

/-- A concurrent phase whose stages succeed on the set `inv` hands over to
the rest of the function, on a workspace of the set. -/
theorem parPhase_succeeds {W : Type} (fs : List (GoFunc W)) (inv : W → Prop)
    (hfs : ∀ f ∈ fs, succeedsOn inv f.body) (sched : List Nat)
    (k : W → List Event → Run W) (w : W) (tr : List Event) (hw : inv w) :
    ∃ w1 evs, inv w1 ∧ (∀ ev ∈ evs, stageEvent fs ev) ∧
      parPhase fs sched k w tr = k w1 (tr ++ evs) := by
  have hinit : SInv fs inv tr (⟨w, tr, none, none, fs.map (fun _ => TState.start)⟩ : GState W) := by
    refine ⟨hw, ⟨rfl, rfl, ?_⟩, [], by simp, by simp⟩
    intro t ht
    simp only [List.mem_map] at ht
    obtain ⟨_, _, rfl⟩ := ht
    trivial
  obtain ⟨hw1, hno, evs, htr, hev⟩ :=
    foldl_stepThread_SInv fs inv hfs tr (sched ++ drain fs.length) _ hinit
  refine ⟨_, evs, hw1, hev, ?_⟩
  unfold parPhase runGroup
  simp only [hno.2.1, htr]

theorem count_call_stageEvents {W : Type} (fs : List (GoFunc W)) (evs : List Event)
    (s : Stage) (hev : ∀ ev ∈ evs, stageEvent fs ev) (hs : ∀ f ∈ fs, f.stage ≠ s) :
    evs.count (Event.call s) = 0 := by
  rw [List.count_eq_zero]
  intro hmem
  obtain ⟨f, hf, h | ⟨r, h⟩⟩ := hev _ hmem
  · simp only [Event.call.injEq] at h
    exact hs f hf h.symm
  · cases h

theorem InstallBusyboxSymlinks_events {W Cfg : Type} (env : Env W Cfg) (bc : Context Cfg)
    (w : W) (s : Stage) :
    (InstallBusyboxSymlinks env bc w).2.2.count (Event.call s) = 0 := by
  unfold InstallBusyboxSymlinks
  simp only
  split
  · split <;> simp
  · split <;> simp

/-- The part of `BuildImage` from the SBOM stage on, in terms of the
collaborator. -/
theorem sbomTail_run {W Cfg : Type} (env : Env W Cfg) (bc : Context Cfg) (w : W)
    (tr : List Event) (hn : tr.count (Event.call Stage.GenerateSBOM) = 0) :
    (bc.SBOMPath ≠ "" →
      (sbomTail env bc w tr).trace.count (Event.call Stage.GenerateSBOM) = 1 ∧
        (sbomTail env bc w tr).world = (env.GenerateSBOM bc w).2 ∧
        (sbomTail env bc w tr).result =
          (env.GenerateSBOM bc w).1.map (fun e => Errorf "failed to generate SBOM: " (some e))) ∧
    (bc.SBOMPath = "" →
      (sbomTail env bc w tr).trace.count (Event.call Stage.GenerateSBOM) = 0 ∧
        (sbomTail env bc w tr).world = w ∧ (sbomTail env bc w tr).result = none) := by
  unfold sbomTail
  constructor
  · intro hp
    rw [if_pos hp]
    rcases hr : (env.GenerateSBOM bc w).1 with _ | e
    · rw [seqStage_ok _ _ _ _ _ _ (show (ext (env.GenerateSBOM bc) w).1 = none from hr)]
      simp [ext, List.count_append, List.count_cons, hn]
    · rw [seqStage_err _ _ _ _ _ _ e (show (ext (env.GenerateSBOM bc) w).1 = some e from hr)]
      simp [ext, List.count_append, List.count_cons, hn]
  · intro hp
    rw [if_neg (by simp [hp])]
    exact ⟨hn, rfl, rfl⟩

/-- C6. Let `Validate` succeed, and let `InitApkDB`, the stages of the two
concurrent phases, `FixateApkWorld`, `InstallBusyboxSymlinks` (when `UseProot`
is set) and `WriteSupervisionTree` succeed on a set `inv` of workspaces that
contains the workspace at entry and that they do not leave.  Then, for every
schedule, `WriteSupervisionTree` runs on a workspace `w1` of the set and:
when `SBOMPath` is not empty, `GenerateSBOM` is called exactly once, on the
workspace `WriteSupervisionTree` left, and `BuildImage` returns its result
(wrapped, if an error) and its workspace; when `SBOMPath` is empty,
`GenerateSBOM` is not called, `BuildImage` returns nil and the workspace
`WriteSupervisionTree` left, and replacing `GenerateSBOM` by any other
collaborator changes nothing of the run. -/
theorem BuildImage_sbom_gating {W Cfg : Type} (env : Env W Cfg) (bc : Context Cfg)
    (sched1 sched2 : List Nat) (w : W) (inv : W → Prop) (hw : inv w)
    (hValidate : env.Validate bc.ImageConfiguration = none)
    (hInitApkDB : succeedsOn inv (env.InitApkDB bc))
    (hInitApkKeyring : succeedsOn inv (env.InitApkKeyring bc))
    (hInitApkRepositories : succeedsOn inv (env.InitApkRepositories bc))
    (hInitApkWorld : succeedsOn inv (env.InitApkWorld bc))
    (hFixateApkWorld : succeedsOn inv (env.FixateApkWorld bc))
    (hNormalize : succeedsOn inv (env.normalizeApkScriptsTar bc))
    (hMutateAccounts : succeedsOn inv (env.MutateAccounts bc))
    (hSymlinks : bc.UseProot = true → ∀ w1, inv w1 →
      (InstallBusyboxSymlinks env bc w1).1 = none ∧ inv (InstallBusyboxSymlinks env bc w1).2.1)
    (hSupervision : succeedsOn inv (env.WriteSupervisionTree bc)) :
    ∃ w1, inv w1 ∧
      (bc.SBOMPath ≠ "" →
        (BuildImage env bc sched1 sched2 w).trace.count (Event.call Stage.GenerateSBOM) = 1 ∧
          (BuildImage env bc sched1 sched2 w).world =
            (env.GenerateSBOM bc (env.WriteSupervisionTree bc w1).2).2 ∧
          (BuildImage env bc sched1 sched2 w).result =
            (env.GenerateSBOM bc (env.WriteSupervisionTree bc w1).2).1.map
              (fun e => Errorf "failed to generate SBOM: " (some e))) ∧
      (bc.SBOMPath = "" →
        (BuildImage env bc sched1 sched2 w).trace.count (Event.call Stage.GenerateSBOM) = 0 ∧
          (BuildImage env bc sched1 sched2 w).world = (env.WriteSupervisionTree bc w1).2 ∧
          (BuildImage env bc sched1 sched2 w).result = none ∧
          ∀ gen, BuildImage { env with GenerateSBOM := gen } bc sched1 sched2 w =
            BuildImage env bc sched1 sched2 w) := by
  have hsup : ∀ w1 tr, inv w1 → tr.count (Event.call Stage.GenerateSBOM) = 0 →
      ∃ w2, inv w2 ∧ supervisionTail env bc w1 tr =
          sbomTail env bc (env.WriteSupervisionTree bc w2).2
            (tr ++ [Event.call Stage.WriteSupervisionTree] ++
              [Event.ret Stage.WriteSupervisionTree none]) := by
    intro w1 tr h1 _
    refine ⟨w1, h1, ?_⟩
    unfold supervisionTail
    rw [seqStage_ok _ _ _ _ _ _
      (show (ext (env.WriteSupervisionTree bc) w1).1 = none from (hSupervision w1 h1).1)]
    simp [ext]
  have hsym : ∀ w1 tr, inv w1 → tr.count (Event.call Stage.GenerateSBOM) = 0 →
      ∃ w2 tr2, inv w2 ∧ tr2.count (Event.call Stage.GenerateSBOM) = 0 ∧
        symlinkTail env bc w1 tr = sbomTail env bc (env.WriteSupervisionTree bc w2).2 tr2 := by
    intro w1 tr h1 htr
    unfold symlinkTail
    by_cases hp : bc.UseProot = true
    · rw [if_pos hp, seqStage_ok _ _ _ _ _ _ (hSymlinks hp w1 h1).1]
      obtain ⟨w2, h2, heq⟩ := hsup (InstallBusyboxSymlinks env bc w1).2.1
        (tr ++ [Event.call Stage.InstallBusyboxSymlinks] ++
          (InstallBusyboxSymlinks env bc w1).2.2 ++
          [Event.ret Stage.InstallBusyboxSymlinks none]) (hSymlinks hp w1 h1).2
        (by simp [List.count_append, List.count_cons, htr, InstallBusyboxSymlinks_events])
      exact ⟨w2, _, h2,
        by simp [List.count_append, List.count_cons, htr, InstallBusyboxSymlinks_events], heq⟩
    · rw [if_neg hp]
      obtain ⟨w2, h2, heq⟩ := hsup w1 tr h1 htr
      exact ⟨w2, _, h2, by simp [List.count_append, List.count_cons, htr], heq⟩
  have hrun : ∃ w2 tr2, inv w2 ∧ tr2.count (Event.call Stage.GenerateSBOM) = 0 ∧
      BuildImage env bc sched1 sched2 w =
        sbomTail env bc (env.WriteSupervisionTree bc w2).2 tr2 := by
    unfold BuildImage
    rw [seqStage_ok _ _ _ _ _ _ hValidate,
      seqStage_ok _ _ _ _ _ _ (show (ext (env.InitApkDB bc) w).1 = none from (hInitApkDB w hw).1)]
    obtain ⟨w3, evs3, h3, hev3, heq3⟩ := parPhase_succeeds (initClosures env bc) inv
      (by
        intro f hf
        simp only [initClosures, List.mem_cons, List.mem_singleton, List.not_mem_nil,
          or_false] at hf
        rcases hf with rfl | rfl | rfl
        · exact hInitApkKeyring
        · exact hInitApkRepositories
        · exact hInitApkWorld) sched1
      (seqStage "failed to fixate apk world: " Stage.FixateApkWorld
        (ext (env.FixateApkWorld bc))
        (parPhase (postClosures env bc) sched2 (symlinkTail env bc)))
      (ext (env.InitApkDB bc) w).2.1 _ (hInitApkDB w hw).2
    rw [heq3, seqStage_ok _ _ _ _ _ _
      (show (ext (env.FixateApkWorld bc) w3).1 = none from (hFixateApkWorld w3 h3).1)]
    obtain ⟨w5, evs5, h5, hev5, heq5⟩ := parPhase_succeeds (postClosures env bc) inv
      (by
        intro f hf
        simp only [postClosures, List.mem_cons, List.mem_singleton, List.not_mem_nil,
          or_false] at hf
        rcases hf with rfl | rfl
        · exact hNormalize
        · exact hMutateAccounts) sched2 (symlinkTail env bc)
      (ext (env.FixateApkWorld bc) w3).2.1 _ (hFixateApkWorld w3 h3).2
    rw [heq5]
    have c3 := count_call_stageEvents (initClosures env bc) evs3 Stage.GenerateSBOM hev3
      (by simp [initClosures])
    have c5 := count_call_stageEvents (postClosures env bc) evs5 Stage.GenerateSBOM hev5
      (by simp [postClosures])
    exact hsym w5 _ h5 (by simp [ext, List.count_append, List.count_cons, c3, c5])
  obtain ⟨w2, tr2, h2, hc2, heq⟩ := hrun
  obtain ⟨ha, hb⟩ := sbomTail_run env bc (env.WriteSupervisionTree bc w2).2 tr2 hc2
  refine ⟨w2, h2, ?_, ?_⟩
  · intro hp
    rw [heq]
    exact ha hp
  · intro hp
    refine ⟨by rw [heq]; exact (hb hp).1, by rw [heq]; exact (hb hp).2.1,
      by rw [heq]; exact (hb hp).2.2, fun gen => ?_⟩
    have hs : ∀ (e : Env W Cfg), sbomTail e bc = fun w tr => ⟨none, w, tr⟩ := by
      intro e; funext w tr; simp [sbomTail, hp]
    have hsupeq : ∀ (e : Env W Cfg), e.WriteSupervisionTree = env.WriteSupervisionTree →
        supervisionTail e bc = supervisionTail env bc := by
      intro e he; funext w tr; simp only [supervisionTail, hs, he]
    have hsymeq : symlinkTail { env with GenerateSBOM := gen } bc = symlinkTail env bc := by
      funext w tr
      simp only [symlinkTail, hsupeq { env with GenerateSBOM := gen } rfl]
      rfl
    unfold BuildImage
    rw [hsymeq]
    rfl

theorem okEnv_symlinks (bc : Context Bool) (w : List String) :
    (InstallBusyboxSymlinks okEnv bc w).1 = none ∧ True := by
  refine ⟨?_, trivial⟩
  unfold InstallBusyboxSymlinks
  simp only [okEnv]
  split
  · rename_i err herr
    split at herr
    · cases herr
    · simp only [Option.some.injEq] at herr
      subst herr
      simp [pathError, errorsIsNotExist, ENOENT]
  · rfl

theorem BuildImage_sbom_gating_witness :
    (BuildImage okEnv sbomCtx [2, 0, 1, 0, 2] [1, 0] []).trace.count
        (Event.call Stage.GenerateSBOM) = 1 ∧
      (BuildImage okEnv okCtx [2, 0, 1, 0, 2] [1, 0] []).trace.count
        (Event.call Stage.GenerateSBOM) = 0 ∧
      (BuildImage okEnv okCtx [2, 0, 1, 0, 2] [1, 0] []).result = none := by
  obtain ⟨_, _, h1, _⟩ := BuildImage_sbom_gating okEnv sbomCtx [2, 0, 1, 0, 2] [1, 0] []
    (fun _ => True) trivial rfl (fun _ _ => ⟨rfl, trivial⟩) (fun _ _ => ⟨rfl, trivial⟩) (fun _ _ => ⟨rfl, trivial⟩)
    (fun _ _ => ⟨rfl, trivial⟩) (fun _ _ => ⟨rfl, trivial⟩) (fun _ _ => ⟨rfl, trivial⟩) (fun _ _ => ⟨rfl, trivial⟩)
    (fun _ w1 _ => okEnv_symlinks _ w1) (fun _ _ => ⟨rfl, trivial⟩)
  obtain ⟨_, _, _, h2⟩ := BuildImage_sbom_gating okEnv okCtx [2, 0, 1, 0, 2] [1, 0] []
    (fun _ => True) trivial rfl (fun _ _ => ⟨rfl, trivial⟩) (fun _ _ => ⟨rfl, trivial⟩) (fun _ _ => ⟨rfl, trivial⟩)
    (fun _ _ => ⟨rfl, trivial⟩) (fun _ _ => ⟨rfl, trivial⟩) (fun _ _ => ⟨rfl, trivial⟩) (fun _ _ => ⟨rfl, trivial⟩)
    (fun _ w1 _ => okEnv_symlinks _ w1) (fun _ _ => ⟨rfl, trivial⟩)
  exact ⟨(h1 (by decide)).1, (h2 (by decide)).1, (h2 (by decide)).2.2.1⟩

/-! ## The captured variable `err` in the first concurrent phase

The three closures of lines 45-67 assign and read the one variable `err` of
`BuildImage`.  The runs below are interleavings of their steps. -/

/-- C2, at a failing input. `InitApkRepositories` returns an error; goroutine
0 assigns nil to `err` before goroutine 1 tests it; the phase reports no
error and `FixateApkWorld` is entered after the failed stage. -/
theorem BuildImage_fixate_after_failed_init :
    (BuildImage reposFailEnv okCtx overwriteSched1 [] []).trace =
      [Event.call Stage.Validate, Event.ret Stage.Validate none,
        Event.call Stage.InitApkDB, Event.ret Stage.InitApkDB none,
        Event.call Stage.InitApkRepositories,
        Event.ret Stage.InitApkRepositories (some (GoError.leaf "repo unreachable")),
        Event.call Stage.InitApkKeyring, Event.ret Stage.InitApkKeyring none,
        Event.call Stage.InitApkWorld, Event.ret Stage.InitApkWorld none,
        Event.call Stage.FixateApkWorld, Event.ret Stage.FixateApkWorld none,
        Event.call Stage.normalizeApkScriptsTar, Event.ret Stage.normalizeApkScriptsTar none,
        Event.call Stage.MutateAccounts, Event.ret Stage.MutateAccounts none,
        Event.call Stage.InstallBusyboxSymlinks, Event.stat "bin/busybox",
        Event.chroot "/bin/busybox" ["--install", "-s"],
        Event.ret Stage.InstallBusyboxSymlinks none,
        Event.call Stage.WriteSupervisionTree, Event.ret Stage.WriteSupervisionTree none] := by
  decide

/-- C3, at a failing input. Exactly one of the three stages, `InitApkKeyring`,
returns an error; goroutine 1 assigns nil to `err` before goroutine 0 tests
it; all three stages run to their end, `FixateApkWorld` is entered and
`BuildImage` returns nil. -/
theorem BuildImage_single_failure_swallowed :
    Event.ret Stage.InitApkKeyring (some (GoError.leaf "no keys")) ∈
        (BuildImage keyringFailEnv okCtx overwriteSched [] []).trace ∧
      Event.ret Stage.InitApkRepositories none ∈
        (BuildImage keyringFailEnv okCtx overwriteSched [] []).trace ∧
      Event.ret Stage.InitApkWorld none ∈
        (BuildImage keyringFailEnv okCtx overwriteSched [] []).trace ∧
      Event.call Stage.FixateApkWorld ∈
        (BuildImage keyringFailEnv okCtx overwriteSched [] []).trace ∧
      (BuildImage keyringFailEnv okCtx overwriteSched [] []).result = none := by
  decide

/-- C4, at a failing input. `InitApkWorld` returns an error; goroutine 0
assigns nil to `err` before goroutine 2 tests it; every later stage succeeds
and `BuildImage` returns nil although a stage it called returned an error. -/
theorem BuildImage_nil_despite_failure :
    Event.ret Stage.InitApkWorld (some (GoError.leaf "bad world")) ∈
        (BuildImage worldFailEnv sbomCtx overwriteSched2 [] []).trace ∧
      (BuildImage worldFailEnv sbomCtx overwriteSched2 [] []).result = none ∧
      (BuildImage worldFailEnv sbomCtx overwriteSched2 [] []).world =
        ["lib/apk/db/installed", "etc/apk/keys", "etc/apk/repositories", "bin/busybox",
          "lib/apk/db/scripts.tar", "etc/passwd", "bin/sh", "sv", "sbom.json"] := by
  decide

/-- C5, at failing inputs. (1) `InitApkKeyring` returns nil and
`InitApkRepositories` an error; goroutine 0 tests and reads `err` after
goroutine 1 assigned it: `BuildImage` returns the keyring prefix around the
error of the repositories stage.  (2) `InitApkKeyring` returns an error;
goroutine 1 assigns nil between the test and the read of goroutine 0: the
returned error has the keyring prefix and no cause. -/
theorem BuildImage_wraps_sibling_error :
    (Event.ret Stage.InitApkKeyring none ∈
        (BuildImage reposFailEnv okCtx readSiblingSched [] []).trace ∧
      (BuildImage reposFailEnv okCtx readSiblingSched [] []).result =
        some (GoError.wrap "failed to initialize apk keyring: repo unreachable"
          (GoError.leaf "repo unreachable"))) ∧
      (BuildImage keyringFailEnv okCtx lateReadSched [] []).result =
          some (GoError.leaf "failed to initialize apk keyring: %!w(<nil>)") ∧
      (GoError.leaf "failed to initialize apk keyring: %!w(<nil>)").Unwrap = none := by
  decide

/-! ## The errgroup machine: the errors of independent stages -/

theorem body_result_foldr {W : Type} (fs : List (GoFunc W)) (hind : independent fs)
    (i : Nat) (f : GoFunc W) (hf : fs[i]? = some f) (order : List Nat) (hni : i ∉ order)
    (w0 : W) : (f.body (order.foldr (effect fs) w0)).1 = (f.body w0).1 := by
  induction order with
  | nil => rfl
  | cons j rest ih =>
    have hij : i ≠ j := fun h => hni (by rw [h]; exact List.mem_cons_self _ _)
    have hrest : i ∉ rest := fun h => hni (List.mem_cons_of_mem _ h)
    rw [List.foldr_cons]
    unfold effect
    rcases hg : fs[j]? with _ | g
    · exact ih hrest
    · simp only
      rw [(hind i j f g hij hf hg _).2]
      exact ih hrest

theorem independent_commuting {W : Type} (fs : List (GoFunc W)) (hind : independent fs) :
    commuting fs := by
  intro f hf g hg w
  obtain ⟨i, hi⟩ := List.mem_iff_getElem?.1 hf
  obtain ⟨j, hj⟩ := List.mem_iff_getElem?.1 hg
  by_cases hij : i = j
  · subst hij
    rw [hi] at hj
    cases hj
    rfl
  · exact (hind i j f g hij hi hj w).1

theorem tOK_of_err {W : Type} (w0 : W) (f : GoFunc W) (err err1 : Option GoError) (t : TState)
    (h : tOK w0 f err t) (herr : f.shared = true → err1 = err ∨ err1 = (f.body w0).1) :
    tOK w0 f err1 t := by
  cases t with
  | assigned loc =>
    simp only [tOK] at h ⊢
    by_cases hs : f.shared = true
    · rw [if_pos hs] at h ⊢
      rcases herr hs with h1 | h1
      · rw [h1]; exact h
      · exact h1
    · rw [if_neg hs] at h ⊢
      exact h
  | failing loc =>
    simp only [tOK] at h ⊢
    by_cases hs : f.shared = true
    · rw [if_pos hs] at h ⊢
      rcases herr hs with h1 | h1
      · rw [h1]; exact h
      · exact ⟨h1, h.2⟩
    · rw [if_neg hs] at h ⊢
      exact h
  | start => trivial
  | called => trivial
  | returned r => exact h
  | exited res => exact h
  | done => trivial

theorem getElem?_set_cases {α : Type} (l : List α) (i j : Nat) (a b : α)
    (h : (l.set i a)[j]? = some b) : (j = i ∧ b = a) ∨ (j ≠ i ∧ l[j]? = some b) := by
  by_cases hij : i = j
  · subst hij
    left
    have hlt : i < l.length := by
      have := (List.getElem?_eq_some_iff.1 h).1
      simpa using this
    rw [List.getElem?_set_self hlt] at h
    cases h
    exact ⟨rfl, rfl⟩
  · right
    rw [List.getElem?_set_ne hij] at h
    exact ⟨fun h1 => hij h1.symm, h⟩

theorem stepThread_TInv {W : Type} (fs : List (GoFunc W)) (w0 : W) (hind : independent fs)
    (hC : sharedAgree fs w0) (hOne : atMostOneFails fs w0) (i : Nat) (g : GState W)
    (hW : WInv fs w0 g) (h : TInv fs w0 g) : TInv fs w0 (stepThread fs i g) := by
  obtain ⟨h1, h2, h3⟩ := h
  unfold stepThread
  rcases hf : fs[i]? with _ | f
  · exact ⟨h1, h2, h3⟩
  rcases ht : g.ts[i]? with _ | t
  · exact ⟨h1, h2, h3⟩
  have hti := h1 i f t hf ht
  have key : ∀ (t1 : TState) (err1 : Option GoError) (w1 : W) (tr1 : List Event),
      tOK w0 f err1 t1 → t1 ≠ TState.done →
      (∀ (j : Nat) (fj : GoFunc W), fs[j]? = some fj → fj.shared = true →
        err1 = g.err ∨ err1 = (fj.body w0).1) →
      TInv fs w0 ⟨w1, tr1, err1, g.gerr, g.ts.set i t1⟩ := by
    intro t1 err1 w1 tr1 hnew hnd herr
    refine ⟨?_, h2, ?_⟩
    · intro j fj tj hfj htj
      rcases getElem?_set_cases _ _ _ _ _ htj with ⟨hji, htt⟩ | ⟨_, hold⟩
      · subst hji
        rw [hf] at hfj
        cases hfj
        rw [htt]
        exact hnew
      · exact tOK_of_err w0 fj g.err err1 tj (h1 j fj tj hfj hold) (herr j fj hfj)
    · intro j fj e hfj htj hres
      rcases getElem?_set_cases _ _ _ _ _ htj with ⟨_, hd⟩ | ⟨_, hold⟩
      · exact absurd hd.symm hnd
      · exact h3 j fj e hfj hold hres
  simp only
  cases t with
  | start =>
    exact key TState.called g.err _ _ trivial (by simp) (fun _ _ _ _ => Or.inl rfl)
  | called =>
    have hres : (f.body g.world).1 = (f.body w0).1 := by
      obtain ⟨order, _, hmem, hw⟩ := hW
      rw [hw]
      apply body_result_foldr fs hind i f hf
      intro hi
      obtain ⟨t, ht1, ht2⟩ := (hmem i).1 hi
      rw [ht] at ht1
      cases ht1
      simp [TState.ran] at ht2
    exact key (TState.returned _) g.err _ _ hres (by simp) (fun _ _ _ _ => Or.inl rfl)
  | returned r =>
    dsimp only
    have hr : r = (f.body w0).1 := hti
    by_cases hs : f.shared = true
    · rw [if_pos hs]
      exact key (TState.assigned none) r g.world g.trace (by simp [tOK, hs, hr]) (by simp)
        (fun j fj hfj hsj => Or.inr (by rw [hr]; exact hC i j f fj hf hfj hs hsj))
    · rw [if_neg hs]
      exact key (TState.assigned r) g.err _ _ (by simp [tOK, hs, hr]) (by simp)
        (fun _ _ _ _ => Or.inl rfl)
  | assigned loc =>
    dsimp only
    have hv : (if f.shared = true then g.err else loc) = (f.body w0).1 := hti
    rw [hv]
    by_cases hsome : (f.body w0).1.isSome = true
    · rw [if_pos hsome]
      exact key (TState.failing loc) g.err _ _ ⟨hv, hsome⟩ (by simp)
        (fun _ _ _ _ => Or.inl rfl)
    · rw [if_neg hsome]
      refine key (TState.exited none) g.err _ _ ?_ (by simp) (fun _ _ _ _ => Or.inl rfl)
      simp only [tOK]
      cases hb : (f.body w0).1 with
      | none => rfl
      | some e => rw [hb] at hsome; simp at hsome
  | failing loc =>
    obtain ⟨hv, hsome⟩ := hti
    dsimp only
    rw [hv]
    refine key (TState.exited _) g.err _ _ ?_ (by simp) (fun _ _ _ _ => Or.inl rfl)
    simp only [tOK]
    cases hb : (f.body w0).1 with
    | none => rw [hb] at hsome; simp at hsome
    | some e => rfl
  | exited res =>
    have hres : res = (f.body w0).1.map (fun e => Errorf f.pre (some e)) := hti
    refine ⟨?_, ?_, ?_⟩
    · intro j fj tj hfj htj
      rcases getElem?_set_cases _ _ _ _ _ htj with ⟨_, htt⟩ | ⟨_, hold⟩
      · rw [htt]; trivial
      · exact h1 j fj tj hfj hold
    · intro E hE
      simp only [errOnce] at hE
      rcases hg : g.gerr with _ | E0
      · rw [hg] at hE
        simp only at hE
        rw [hres] at hE
        cases hb : (f.body w0).1 with
        | none => rw [hb] at hE; simp at hE
        | some e =>
          rw [hb] at hE
          simp only [Option.map_some', Option.some.injEq] at hE
          exact ⟨i, f, e, hf, hb, hE.symm⟩
      · rw [hg] at hE
        simp only [Option.some.injEq] at hE
        subst hE
        exact h2 E0 hg
    · intro j fj e hfj htj hbj
      simp only [errOnce]
      rcases getElem?_set_cases _ _ _ _ _ htj with ⟨hji, _⟩ | ⟨_, hold⟩
      · subst hji
        rw [hf] at hfj
        cases hfj
        rcases hg : g.gerr with _ | E0
        · simp only
          rw [hres, hbj]
          rfl
        · simp only
          obtain ⟨i0, f0, e0, hf0, hb0, hE0⟩ := h2 E0 hg
          have hii : i0 = j := hOne i0 j f0 f e0 e hf0 hf hb0 hbj
          subst hii
          rw [hf] at hf0
          cases hf0
          rw [hbj] at hb0
          cases hb0
          rw [hE0]
      · rw [h3 j fj e hfj hold hbj]
  | done => exact ⟨h1, h2, h3⟩

theorem foldl_stepThread_TInv {W : Type} (fs : List (GoFunc W)) (w0 : W)
    (hind : independent fs) (hC : sharedAgree fs w0) (hOne : atMostOneFails fs w0)
    (sched : List Nat) (g : GState W) (hW : WInv fs w0 g) (h : TInv fs w0 g) :
    TInv fs w0 (sched.foldl (fun g i => stepThread fs i g) g) := by
  induction sched generalizing g with
  | nil => exact h
  | cons i rest ih =>
    exact ih _ (stepThread_WInv fs w0 i g hW) (stepThread_TInv fs w0 hind hC hOne i g hW h)

/-- With independent stages of which at most one fails, the error a
concurrent phase reports and the workspace it leaves are the same for every
schedule: no error when every stage succeeds on the entry workspace, and the
wrapped error of the stage that fails there otherwise. -/
theorem runGroup_outcome {W : Type} (fs : List (GoFunc W)) (hind : independent fs)
    (sched : List Nat) (w : W) (tr : List Event) (hC : sharedAgree fs w)
    (hOne : atMostOneFails fs w) :
    (runGroup fs sched ⟨w, tr, none, none, fs.map (fun _ => TState.start)⟩).world =
        groupWorld fs w ∧
      ((∀ f ∈ fs, (f.body w).1 = none) →
        (runGroup fs sched ⟨w, tr, none, none, fs.map (fun _ => TState.start)⟩).gerr = none) ∧
      (∀ (i : Nat) (f : GoFunc W) (e : GoError), fs[i]? = some f → (f.body w).1 = some e →
        (runGroup fs sched ⟨w, tr, none, none, fs.map (fun _ => TState.start)⟩).gerr =
          some (Errorf f.pre (some e))) := by
  have hstart : ∀ (i : Nat) (t : TState),
      (fs.map (fun _ => TState.start))[i]? = some t → t = TState.start := by
    intro i t ht
    rw [List.getElem?_map] at ht
    rcases hfi : fs[i]? with _ | f
    · rw [hfi] at ht; cases ht
    · rw [hfi] at ht
      simp only [Option.map_some', Option.some.injEq] at ht
      exact ht.symm
  have hWinit : WInv fs w (⟨w, tr, none, none, fs.map (fun _ => TState.start)⟩ : GState W) := by
    refine ⟨[], List.nodup_nil, ?_, rfl⟩
    intro i
    simp only [List.not_mem_nil, false_iff, not_exists, not_and]
    intro t ht
    rw [hstart i t ht]
    simp [TState.ran]
  have hTinit : TInv fs w (⟨w, tr, none, none, fs.map (fun _ => TState.start)⟩ : GState W) := by
    refine ⟨?_, ?_, ?_⟩
    · intro i f t _ ht
      rw [hstart i t ht]
      trivial
    · intro E hE
      cases hE
    · intro i f e _ ht _
      have := hstart i _ ht
      cases this
  obtain ⟨_, h2, h3⟩ :=
    foldl_stepThread_TInv fs w hind hC hOne (sched ++ drain fs.length) _ hWinit hTinit
  refine ⟨runGroup_world fs (independent_commuting fs hind) sched w tr, ?_, ?_⟩
  · intro hall
    rcases hg : (runGroup fs sched ⟨w, tr, none, none,
      fs.map (fun _ => TState.start)⟩).gerr with _ | E
    · rfl
    · obtain ⟨i, f, e, hf, hb, _⟩ := h2 E hg
      rw [hall f (List.getElem?_mem hf)] at hb
      cases hb
  · intro i f e hf hb
    have hi : i < fs.length := (List.getElem?_eq_some_iff.1 hf).1
    exact h3 i f e hf (runGroup_done fs sched _ (by simp) i hi) hb

theorem seqStage_same {W : Type} (pre : String) (s : Stage)
    (body : W → Option GoError × W × List Event) (k1 k2 : W → List Event → Run W) (w : W)
    (tr1 tr2 : List Event)
    (hk : (body w).1 = none → ∀ tr3 tr4, sameOutcome (k1 (body w).2.1 tr3) (k2 (body w).2.1 tr4)) :
    sameOutcome (seqStage pre s body k1 w tr1) (seqStage pre s body k2 w tr2) := by
  rcases h : (body w).1 with _ | e
  · rw [seqStage_ok _ _ _ _ _ _ h, seqStage_ok _ _ _ _ _ _ h]
    exact hk h _ _
  · rw [seqStage_err _ _ _ _ _ _ e h, seqStage_err _ _ _ _ _ _ e h]
    exact ⟨rfl, rfl⟩

theorem parPhase_same {W : Type} (fs : List (GoFunc W)) (hind : independent fs)
    (sched1 sched2 : List Nat) (k1 k2 : W → List Event → Run W) (w : W)
    (tr1 tr2 : List Event) (hC : sharedAgree fs w) (hOne : atMostOneFails fs w)
    (hk : (∀ f ∈ fs, (f.body w).1 = none) →
      ∀ tr3 tr4, sameOutcome (k1 (groupWorld fs w) tr3) (k2 (groupWorld fs w) tr4)) :
    sameOutcome (parPhase fs sched1 k1 w tr1) (parPhase fs sched2 k2 w tr2) := by
  obtain ⟨hw1, hn1, hs1⟩ := runGroup_outcome fs hind sched1 w tr1 hC hOne
  obtain ⟨hw2, hn2, hs2⟩ := runGroup_outcome fs hind sched2 w tr2 hC hOne
  unfold parPhase
  simp only
  by_cases hall : ∀ f ∈ fs, (f.body w).1 = none
  · rw [hn1 hall, hn2 hall, hw1, hw2]
    exact hk hall _ _
  · have hex : ∃ f ∈ fs, ∃ e, (f.body w).1 = some e := by
      by_contra hcon
      apply hall
      intro f hf
      rcases hb : (f.body w).1 with _ | e
      · rfl
      · exact absurd ⟨f, hf, e, hb⟩ hcon
    obtain ⟨f, hf, e, hb⟩ := hex
    obtain ⟨i, hi⟩ := List.mem_iff_getElem?.1 hf
    rw [hs1 i f e hi hb, hs2 i f e hi hb]
    exact ⟨rfl, by rw [hw1, hw2]⟩

theorem symlinkTail_same {W Cfg : Type} (env : Env W Cfg) (bc : Context Cfg) (w : W)
    (tr1 tr2 : List Event) :
    sameOutcome (symlinkTail env bc w tr1) (symlinkTail env bc w tr2) := by
  have hsbom : ∀ w tr1 tr2, sameOutcome (sbomTail env bc w tr1) (sbomTail env bc w tr2) := by
    intro w tr1 tr2
    unfold sbomTail
    split
    · exact seqStage_same _ _ _ _ _ _ _ _ (fun _ _ _ => ⟨rfl, rfl⟩)
    · exact ⟨rfl, rfl⟩
  have hsup : ∀ w tr1 tr2,
      sameOutcome (supervisionTail env bc w tr1) (supervisionTail env bc w tr2) := by
    intro w tr1 tr2
    exact seqStage_same _ _ _ _ _ _ _ _ (fun _ => hsbom _)
  unfold symlinkTail
  split
  · exact seqStage_same _ _ _ _ _ _ _ _ (fun _ => hsup _)
  · exact hsup _ _ _

theorem groupWorld_initClosures {W Cfg : Type} (env : Env W Cfg) (bc : Context Cfg) (w : W) :
    groupWorld (initClosures env bc) (initEntry env bc w) = fixateEntry env bc w := rfl

theorem groupWorld_postClosures {W Cfg : Type} (env : Env W Cfg) (bc : Context Cfg) (w : W) :
    groupWorld (postClosures env bc) w =
      (env.normalizeApkScriptsTar bc (env.MutateAccounts bc w).2).2 := rfl

/-! ## Determinism -/

theorem postClosures_lookup {W Cfg : Type} (env : Env W Cfg) (bc : Context Cfg) (i : Nat)
    (f : GoFunc W) (h : (postClosures env bc)[i]? = some f) :
    (i = 0 ∧ f = ⟨Stage.normalizeApkScriptsTar, env.normalizeApkScriptsTar bc,
        "failed to normalize scripts.tar: ", false⟩) ∨
      (i = 1 ∧ f = ⟨Stage.MutateAccounts, env.MutateAccounts bc,
        "failed to mutate accounts: ", true⟩) := by
  rcases i with _ | _ | i
  · left; simp [postClosures] at h; exact ⟨rfl, h.symm⟩
  · right; simp [postClosures] at h; exact ⟨rfl, h.symm⟩
  · simp [postClosures] at h

/-- C9, counterexample. Two runs of the same context on the same workspace
with the same deterministic collaborators differ.  (1) When both
`InitApkKeyring` and `InitApkRepositories` fail, the error `BuildImage` returns
is the one of the goroutine that finished first.  (2) When all stages succeed
but `InitApkKeyring` looks at what `InitApkRepositories` writes, the workspace
depends on which of the two ran first. -/
theorem BuildImage_depends_on_schedule :
    (BuildImage twoFailEnv okCtx [] [] []).result ≠
        (BuildImage twoFailEnv okCtx reposFirstSched [] []).result ∧
      (BuildImage peekEnv okCtx [] [] 0).world ≠
        (BuildImage peekEnv okCtx reposFirstSched [] 0).world := by
  decide

/-- C9, amended. Take two runs of `BuildImage` with the same collaborators,
the same context and the same workspace at entry.  Let the stages inside each
concurrent phase be independent.  Let the three stages of the first concurrent
phase succeed on the workspace `InitApkDB` leaves, and let the two stages of
the second concurrent phase not both fail on the workspace `FixateApkWorld`
leaves (each condition is asked only if the run gets that far).  Then the two
runs return the same result and leave the same workspace, whatever the
schedules of the two concurrent phases are. -/
theorem BuildImage_deterministic {W Cfg : Type} (env : Env W Cfg) (bc : Context Cfg) (w : W)
    (sched1 sched2 sched3 sched4 : List Nat)
    (hind1 : independent (initClosures env bc)) (hind2 : independent (postClosures env bc))
    (hinit : env.Validate bc.ImageConfiguration = none → (env.InitApkDB bc w).1 = none →
      (env.InitApkKeyring bc (initEntry env bc w)).1 = none ∧
        (env.InitApkRepositories bc (initEntry env bc w)).1 = none ∧
        (env.InitApkWorld bc (initEntry env bc w)).1 = none)
    (hpost : env.Validate bc.ImageConfiguration = none → (env.InitApkDB bc w).1 = none →
      (env.FixateApkWorld bc (fixateEntry env bc w)).1 = none →
      (env.normalizeApkScriptsTar bc (postEntry env bc w)).1 = none ∨
        (env.MutateAccounts bc (postEntry env bc w)).1 = none) :
    (BuildImage env bc sched1 sched2 w).result = (BuildImage env bc sched3 sched4 w).result ∧
      (BuildImage env bc sched1 sched2 w).world = (BuildImage env bc sched3 sched4 w).world := by
  have main : sameOutcome (BuildImage env bc sched1 sched2 w)
      (BuildImage env bc sched3 sched4 w) := by
    unfold BuildImage
    apply seqStage_same
    intro hV tr3 tr4
    apply seqStage_same
    intro hDB tr5 tr6
    have hDB1 : (env.InitApkDB bc w).1 = none := hDB
    have hV1 : env.Validate bc.ImageConfiguration = none := hV
    obtain ⟨hK, hR, hWd⟩ := hinit hV1 hDB1
    have hnone : ∀ f ∈ initClosures env bc, (f.body (initEntry env bc w)).1 = none := by
      intro f hf
      simp only [initClosures, List.mem_cons, List.mem_singleton, List.not_mem_nil,
        or_false] at hf
      rcases hf with rfl | rfl | rfl
      · exact hK
      · exact hR
      · exact hWd
    apply parPhase_same (initClosures env bc) hind1
    · intro i j f g hf hg _ _
      show (f.body (initEntry env bc w)).1 = (g.body (initEntry env bc w)).1
      rw [hnone f (List.getElem?_mem hf), hnone g (List.getElem?_mem hg)]
    · intro i j f g e1 e2 hf _ hb _
      have : (f.body (initEntry env bc w)).1 = some e1 := hb
      rw [hnone f (List.getElem?_mem hf)] at this
      cases this
    intro _ tr7 tr8
    show sameOutcome (seqStage _ _ _ _ (groupWorld (initClosures env bc) (initEntry env bc w)) _)
      (seqStage _ _ _ _ (groupWorld (initClosures env bc) (initEntry env bc w)) _)
    rw [groupWorld_initClosures]
    apply seqStage_same
    intro hF tr9 tr10
    have hF1 : (env.FixateApkWorld bc (fixateEntry env bc w)).1 = none := hF
    have hNM := hpost hV1 hDB1 hF1
    apply parPhase_same (postClosures env bc) hind2
    · intro i j f g hf hg hsf hsg
      rcases postClosures_lookup env bc i f hf with ⟨_, rfl⟩ | ⟨_, rfl⟩
      · cases hsf
      · rcases postClosures_lookup env bc j g hg with ⟨_, rfl⟩ | ⟨_, rfl⟩
        · cases hsg
        · rfl
    · intro i j f g e1 e2 hf hg hb1 hb2
      rcases postClosures_lookup env bc i f hf with ⟨rfl, rfl⟩ | ⟨rfl, rfl⟩ <;>
        rcases postClosures_lookup env bc j g hg with ⟨rfl, rfl⟩ | ⟨rfl, rfl⟩
      · rfl
      · exfalso
        have hN : (env.normalizeApkScriptsTar bc (postEntry env bc w)).1 = some e1 := hb1
        have hM : (env.MutateAccounts bc (postEntry env bc w)).1 = some e2 := hb2
        rcases hNM with h | h
        · rw [h] at hN; cases hN
        · rw [h] at hM; cases hM
      · exfalso
        have hM : (env.MutateAccounts bc (postEntry env bc w)).1 = some e1 := hb1
        have hN : (env.normalizeApkScriptsTar bc (postEntry env bc w)).1 = some e2 := hb2
        rcases hNM with h | h
        · rw [h] at hN; cases hN
        · rw [h] at hM; cases hM
      · rfl
    intro _ tr11 tr12
    exact symlinkTail_same env bc _ _ _
  exact main

theorem independent_of_mem {W : Type} (fs : List (GoFunc W))
    (h : ∀ f ∈ fs, ∀ g ∈ fs, ∀ w, (f.body (g.body w).2).2 = (g.body (f.body w).2).2 ∧
      (f.body (g.body w).2).1 = (f.body w).1) : independent fs :=
  fun _ _ f g _ hf hg w => h f (List.getElem?_mem hf) g (List.getElem?_mem hg) w

theorem markFailEnv_independent_init : independent (initClosures markFailEnv okCtx) := by
  apply independent_of_mem
  intro f hf g hg w
  simp only [initClosures, List.mem_cons, List.mem_singleton, List.not_mem_nil, or_false] at hf hg
  rcases hf with rfl | rfl | rfl <;> rcases hg with rfl | rfl | rfl <;>
    simp only [markFailEnv, markEnv, mark, and_true]

theorem markFailEnv_independent_post : independent (postClosures markFailEnv okCtx) := by
  apply independent_of_mem
  intro f hf g hg w
  simp only [postClosures, List.mem_cons, List.mem_singleton, List.not_mem_nil, or_false] at hf hg
  rcases hf with rfl | rfl <;> rcases hg with rfl | rfl <;>
    simp only [markFailEnv, markEnv, mark, and_true]

theorem BuildImage_deterministic_witness :
    (independent (initClosures markFailEnv okCtx) ∧
        independent (postClosures markFailEnv okCtx)) ∧
      (BuildImage markFailEnv okCtx [2, 1, 0, 2, 1, 0, 0] [1, 0, 1, 1] 0).result =
        (BuildImage markFailEnv okCtx [] [0, 1, 1] 0).result ∧
      (BuildImage markFailEnv okCtx [2, 1, 0, 2, 1, 0, 0] [1, 0, 1, 1] 0).world =
        (BuildImage markFailEnv okCtx [] [0, 1, 1] 0).world :=
  ⟨⟨markFailEnv_independent_init, markFailEnv_independent_post⟩,
    BuildImage_deterministic markFailEnv okCtx 0 [2, 1, 0, 2, 1, 0, 0] [1, 0, 1, 1] [] [0, 1, 1]
      markFailEnv_independent_init markFailEnv_independent_post
      (fun _ _ => ⟨rfl, rfl, rfl⟩) (fun _ _ _ => Or.inl rfl)⟩

end Apko
